import Mathlib

/-!
# Golang-CLI-Weather-App: a shallow embedding of `main.go`

The program reads a menu choice, optionally asks an IP-geolocation service for a city,
issues one GET to the weather service, decodes the JSON answer into `WeatherData` and
prints a report in Celsius.

Everything the program does to the outside world is an `Event` of a `Run`; everything the
outside world answers comes from an `Env`.  Go strings are Lean strings (a Go string is the
UTF-8 bytes of the text), Go `int` is `Int` with the 64-bit range checked where the code
parses one, and `float64` is modelled exactly (`F64`).
-/

namespace WeatherApp

/-! ## float64 -/

/-- A float64 value.  A finite double is a whole number of units of `2^-1074` (the smallest
subnormal), kept with its sign, so `fin false 0` is `+0` and `fin true 0` is `-0`. -/
inductive F64 where
  | fin (neg : Bool) (units : Nat)
  | inf (neg : Bool)
  | nan
  deriving DecidableEq

/-- The integer nearest to `num / den`, a tie going to the even one. -/
def roundHalfEven (num den : Nat) : Nat :=
  let q := num / den
  let r := num % den
  if 2 * r < den then q
  else if den < 2 * r then q + 1
  else if q % 2 = 0 then q else q + 1

/-- The number of binary digits of `n`, counted in `acc`; `fuel` bounds the halvings. -/
def bitLengthAux : Nat → Nat → Nat → Nat
  | 0, _, acc => acc
  | fuel + 1, n, acc => if n = 0 then acc else bitLengthAux fuel (n / 2) (acc + 1)

/-- The number of binary digits of `n` (0 for 0). -/
def bitLength (n : Nat) : Nat := bitLengthAux n n 0

/-- Round `num / den` units of `2^-1074` to a value with at most 53 significant bits
(round to nearest, ties to even); below `2^53` units the spacing of doubles is one unit. -/
def roundUnits (num den : Nat) : Nat :=
  let bits := bitLength (num / den)
  if bits ≤ 53 then roundHalfEven num den
  else roundHalfEven num (den * 2 ^ (bits - 53)) * 2 ^ (bits - 53)

/-- The double nearest to `± num / den` units; `2^2098` units is `2^1024`, out of range. -/
def F64.ofUnits (neg : Bool) (num den : Nat) : F64 :=
  let u := roundUnits num den
  if 2 ^ 2098 ≤ u then .inf neg else .fin neg u

/-- The double nearest to the decimal `± mant * 10^exp10` (what `strconv.ParseFloat` and
the Go compiler give for a decimal literal). -/
def F64.ofDecimal (neg : Bool) (mant : Nat) (exp10 : Int) : F64 :=
  match exp10 with
  | .ofNat e => F64.ofUnits neg (mant * 10 ^ e * 2 ^ 1074) 1
  | .negSucc e => F64.ofUnits neg (mant * 2 ^ 1074) (10 ^ (e + 1))

/-- The float64 subtraction `a - b`. -/
def F64.sub : F64 → F64 → F64
  | .nan, _ => .nan
  | _, .nan => .nan
  | .inf s, .inf t => if s = t then .nan else .inf s
  | .inf s, .fin _ _ => .inf s
  | .fin _ _, .inf t => .inf (!t)
  | .fin s a, .fin t b =>
    if s = t then
      -- same sign: the magnitudes are subtracted
      if a = b then .fin false 0
      else if b < a then F64.ofUnits s (a - b) 1
      else F64.ofUnits (!s) (b - a) 1
    else
      -- opposite signs: the magnitudes add, the sign is that of `a`
      F64.ofUnits s (a + b) 1

/-- The constant `273.15` of `displayWeatherInfo`, as the float64 the compiler makes of it. -/
def kelvinOffset : F64 := F64.ofDecimal false 27315 (-2)

/-- Decimal digits of a natural number (`%d` of a non-negative integer). -/
def natToDec (n : Nat) : String := String.mk (Nat.toDigits 10 n)

/-- Two decimal digits, zero padded. -/
def twoDigits (n : Nat) : String :=
  String.mk [Nat.digitChar (n / 10 % 10), Nat.digitChar (n % 10)]

/-- The number of hundredths nearest to `u` units of `2^-1074` (ties to even). -/
def hundredths (u : Nat) : Nat := roundHalfEven (u * 100) (2 ^ 1074)

/-- The verb `%.2f`: the exact value rounded to hundredths (ties to even), sign kept. -/
def formatFloat2 : F64 → String
  | .nan => "NaN"
  | .inf neg => if neg then "-Inf" else "+Inf"
  | .fin neg u =>
    (if neg then "-" else "") ++ natToDec (hundredths u / 100) ++ "."
      ++ twoDigits (hundredths u % 100)

/-- The verb `%d`. -/
def formatInt : Int → String
  | .ofNat n => natToDec n
  | .negSucc n => "-" ++ natToDec (n + 1)

/-! ## JSON text (the part of `encoding/json` that `json.Unmarshal` runs first) -/

/-- A JSON number as written: `± mant * 10^exp10`, and whether the literal is plain
digits (no fraction, no exponent), which is what an `int` field accepts. -/
structure JNum where
  neg : Bool
  mant : Nat
  exp10 : Int
  integral : Bool
  deriving DecidableEq

/-- A JSON value; an object keeps its members in the order written. -/
inductive JSON where
  | null
  | bool (b : Bool)
  | num (n : JNum)
  | str (s : String)
  | arr (items : List JSON)
  | obj (members : List (String × JSON))

/-- The tokens of a JSON text; scalars are lexed to their value. -/
inductive Token where
  | lbrace | rbrace | lbrack | rbrack | colon | comma
  | lit (v : JSON)

/-- JSON white space. -/
def isWs (c : Char) : Bool := c = ' ' || c = '\t' || c = '\n' || c = '\r'

/-- The double quote. -/
def quoteChar : Char := Char.ofNat 34

/-- The backslash. -/
def backslashChar : Char := Char.ofNat 92

/-- Value of a hexadecimal digit, either case. -/
def hexVal (c : Char) : Option Nat :=
  if '0' ≤ c ∧ c ≤ '9' then some (c.toNat - 48)
  else if 'a' ≤ c ∧ c ≤ 'f' then some (c.toNat - 87)
  else if 'A' ≤ c ∧ c ≤ 'F' then some (c.toNat - 55)
  else none

/-- The four hex digits of a `\u` escape. -/
def hex4 (a b c d : Char) : Option Nat :=
  match hexVal a, hexVal b, hexVal c, hexVal d with
  | some w, some x, some y, some z => some (w * 4096 + x * 256 + y * 16 + z)
  | _, _, _, _ => none

/-- The character of a one-letter escape. -/
def simpleEscape (c : Char) : Option Char :=
  if c = quoteChar then some quoteChar
  else if c = backslashChar then some backslashChar
  else if c = '/' then some '/'
  else if c = 'b' then some (Char.ofNat 8)
  else if c = 'f' then some (Char.ofNat 12)
  else if c = 'n' then some '\n'
  else if c = 'r' then some '\r'
  else if c = 't' then some '\t'
  else none

/-- An unpaired surrogate escape decodes to U+FFFD. -/
def flushSurrogate (pending : Option Nat) (acc : List Char) : List Char :=
  match pending with
  | some _ => Char.ofNat 0xFFFD :: acc
  | none => acc

/-- The body of a string literal, after its opening quote: the decoded text and the input
after the closing quote.  `pending` is a high surrogate escape waiting for its low half;
`acc` is the text so far, reversed. -/
def lexString : List Char → Option Nat → List Char → Option (String × List Char)
  | [], _, _ => none
  | c :: rest, pending, acc =>
    if c = quoteChar then some (String.mk (flushSurrogate pending acc).reverse, rest)
    else if c = backslashChar then
      match rest with
      | [] => none
      | e :: rest1 =>
        if e = 'u' then
          match rest1 with
          | h1 :: h2 :: h3 :: h4 :: rest2 =>
            match hex4 h1 h2 h3 h4 with
            | none => none
            | some r =>
              if 0xD800 ≤ r ∧ r < 0xDC00 then
                lexString rest2 (some r) (flushSurrogate pending acc)
              else if 0xDC00 ≤ r ∧ r < 0xE000 then
                match pending with
                | some hi =>
                  lexString rest2 none
                    (Char.ofNat (0x10000 + (hi - 0xD800) * 1024 + (r - 0xDC00)) :: acc)
                | none => lexString rest2 none (Char.ofNat 0xFFFD :: acc)
              else lexString rest2 none (Char.ofNat r :: flushSurrogate pending acc)
          | _ => none
        else
          match simpleEscape e with
          | some ch => lexString rest1 none (ch :: flushSurrogate pending acc)
          | none => none
    else if c.toNat < 32 then none
    else lexString rest none (c :: flushSurrogate pending acc)

/-- The leading decimal digits of the input, and what follows them. -/
def takeDigits : List Char → List Char × List Char
  | [] => ([], [])
  | c :: rest =>
    if c.isDigit then ((takeDigits rest).1.cons c, (takeDigits rest).2) else ([], c :: rest)

/-- Value of a run of decimal digits. -/
def digitsVal (ds : List Char) : Nat := ds.foldl (fun n c => n * 10 + (c.toNat - 48)) 0

/-- The optional fraction of a number: its digits (none without a point). -/
def lexFraction : List Char → Option (List Char × List Char)
  | '.' :: rest =>
    match takeDigits rest with
    | ([], _) => none
    | (ds, rest1) => some (ds, rest1)
  | cs => some ([], cs)

/-- The digits after the `e` of an exponent, sign applied. -/
def lexExpDigits (negative : Bool) (cs : List Char) : Option (Int × List Char) :=
  match takeDigits cs with
  | ([], _) => none
  | (ds, rest) => some (if negative then - (digitsVal ds : Int) else (digitsVal ds : Int), rest)

/-- The optional exponent of a number (none written: `none`). -/
def lexExponent : List Char → Option (Option Int × List Char)
  | c :: rest =>
    if c = 'e' ∨ c = 'E' then
      match rest with
      | '+' :: rest1 => (lexExpDigits false rest1).map (fun r => (some r.1, r.2))
      | '-' :: rest1 => (lexExpDigits true rest1).map (fun r => (some r.1, r.2))
      | _ => (lexExpDigits false rest).map (fun r => (some r.1, r.2))
    else some (none, c :: rest)
  | [] => some (none, [])

/-- A number literal without its sign: `0` or a digit run with no leading zero, then an
optional fraction and an optional exponent. -/
def lexUnsigned (neg : Bool) (cs : List Char) : Option (JNum × List Char) :=
  match takeDigits cs with
  | ([], _) => none
  | (d :: ds, rest) =>
    -- after a leading `0` the integer part is over
    let intDigits := if d = '0' then [d] else d :: ds
    let rest0 := if d = '0' then ds ++ rest else rest
    match lexFraction rest0 with
    | none => none
    | some (fs, rest1) =>
      match lexExponent rest1 with
      | none => none
      | some (e, rest2) =>
        some ({ neg := neg
                mant := digitsVal (intDigits ++ fs)
                exp10 := e.getD 0 - (fs.length : Int)
                integral := fs.isEmpty && e.isNone }, rest2)

/-- A number literal. -/
def lexNumber : List Char → Option (JNum × List Char)
  | '-' :: rest => lexUnsigned true rest
  | cs => lexUnsigned false cs

/-- The token that starts with the character `c` followed by `rest` (no token for white
space) and the input after it; `none` when no token starts there. -/
def nextToken (c : Char) (rest : List Char) : Option (Option Token × List Char) :=
  if isWs c then some (none, rest)
  else if c = '{' then some (some .lbrace, rest)
  else if c = '}' then some (some .rbrace, rest)
  else if c = '[' then some (some .lbrack, rest)
  else if c = ']' then some (some .rbrack, rest)
  else if c = ':' then some (some .colon, rest)
  else if c = ',' then some (some .comma, rest)
  else if c = quoteChar then
    match lexString rest none [] with
    | none => none
    | some (s, rest1) => some (some (.lit (.str s)), rest1)
  else if c = '-' ∨ c.isDigit then
    match lexNumber (c :: rest) with
    | none => none
    | some (n, rest1) => some (some (.lit (.num n)), rest1)
  else
    match c :: rest with
    | 'n' :: 'u' :: 'l' :: 'l' :: rest1 => some (some (.lit .null), rest1)
    | 't' :: 'r' :: 'u' :: 'e' :: rest1 => some (some (.lit (.bool true)), rest1)
    | 'f' :: 'a' :: 'l' :: 's' :: 'e' :: rest1 => some (some (.lit (.bool false)), rest1)
    | _ => none

/-- The tokens of a JSON text, `none` when some character starts no token.  One unit of
`fuel` is used per token or white space character; the length of the text and one more is
enough (`lex_fuel`). -/
def lex : Nat → List Char → Option (List Token)
  | _, [] => some []
  | 0, _ :: _ => none
  | fuel + 1, c :: rest =>
    match nextToken c rest with
    | none => none
    | some (none, rest1) => lex fuel rest1
    | some (some t, rest1) => (lex fuel rest1).map (List.cons t)

/-- An array or object being read: what it holds so far (latest first), and for an object
the key whose value is awaited. -/
inductive Frame where
  | arr (items : List JSON)
  | obj (members : List (String × JSON)) (key : String)

/-- What the grammar allows next. -/
inductive Expect where
  | value        -- a value
  | valueOrEnd   -- just after `[`
  | keyOrEnd     -- just after `{`
  | key          -- after a comma inside an object
  | colon        -- after a key
  | afterValue   -- after a value inside an array or object
  | done (v : JSON)  -- the top-level value is complete

/-- A value is complete: it goes to the enclosing array or object, or is the result. -/
def complete (v : JSON) : List Frame → List Frame × Expect
  | [] => ([], .done v)
  | .arr items :: stack => (.arr (v :: items) :: stack, .afterValue)
  | .obj members key :: stack => (.obj ((key, v) :: members) key :: stack, .afterValue)

/-- The nesting depth `encoding/json` accepts. -/
def maxNestingDepth : Nat := 10000

/-- Run the JSON grammar over the tokens. -/
def parseTokens : List Token → List Frame → Expect → Option JSON
  | [], _, .done v => some v
  | [], _, _ => none
  | t :: ts, stack, e =>
    match e, t, stack with
    | .value, .lit v, _ => parseTokens ts (complete v stack).1 (complete v stack).2
    | .valueOrEnd, .lit v, _ => parseTokens ts (complete v stack).1 (complete v stack).2
    | .value, .lbrack, _ =>
      if stack.length < maxNestingDepth then parseTokens ts (.arr [] :: stack) .valueOrEnd
      else none
    | .valueOrEnd, .lbrack, _ =>
      if stack.length < maxNestingDepth then parseTokens ts (.arr [] :: stack) .valueOrEnd
      else none
    | .value, .lbrace, _ =>
      if stack.length < maxNestingDepth then parseTokens ts (.obj [] "" :: stack) .keyOrEnd
      else none
    | .valueOrEnd, .lbrace, _ =>
      if stack.length < maxNestingDepth then parseTokens ts (.obj [] "" :: stack) .keyOrEnd
      else none
    | .valueOrEnd, .rbrack, .arr items :: below =>
      parseTokens ts (complete (.arr items.reverse) below).1
        (complete (.arr items.reverse) below).2
    | .afterValue, .rbrack, .arr items :: below =>
      parseTokens ts (complete (.arr items.reverse) below).1
        (complete (.arr items.reverse) below).2
    | .keyOrEnd, .rbrace, .obj members _ :: below =>
      parseTokens ts (complete (.obj members.reverse) below).1
        (complete (.obj members.reverse) below).2
    | .afterValue, .rbrace, .obj members _ :: below =>
      parseTokens ts (complete (.obj members.reverse) below).1
        (complete (.obj members.reverse) below).2
    | .keyOrEnd, .lit (.str k), .obj members _ :: below =>
      parseTokens ts (.obj members k :: below) .colon
    | .key, .lit (.str k), .obj members _ :: below =>
      parseTokens ts (.obj members k :: below) .colon
    | .colon, .colon, _ => parseTokens ts stack .value
    | .afterValue, .comma, .arr items :: below => parseTokens ts (.arr items :: below) .value
    | .afterValue, .comma, .obj members k :: below =>
      parseTokens ts (.obj members k :: below) .key
    | _, _, _ => none

/-- The JSON value a text denotes, `none` when the text is not valid JSON (the check
`json.Unmarshal` makes before it stores anything). -/
def parseJSON (body : String) : Option JSON :=
  match lex (body.data.length + 1) body.data with
  | none => none
  | some toks => parseTokens toks [] .value

/-! ## Errors, and `json.Unmarshal` into the two targets the program uses -/

/-- A Go `error` value.  The text of the errors the program makes itself is kept; errors
made by a library keep the text the library gave, the two kinds of `json.Unmarshal`
failure are told apart without their text. -/
inductive GoError where
  | errorf (text : String)     -- made by `fmt.Errorf`
  | external (text : String)   -- from `http.Get`, `io.ReadAll` or `fmt.Scan`
  | jsonInvalid                -- the text is not JSON
  | jsonType                   -- a JSON value does not fit the Go type it is stored in
  deriving DecidableEq

/-- Whether every number token converts to a finite float64 (a number stored in an
`interface{}` goes through `strconv.ParseFloat`, which fails out of range). -/
def numbersFit : List Token → Bool
  | [] => true
  | .lit (.num n) :: ts =>
    (match F64.ofDecimal n.neg n.mant n.exp10 with
     | .fin _ _ => true
     | _ => false) && numbersFit ts
  | _ :: ts => numbersFit ts

/-- The call `json.Unmarshal(body, &locationData)` for a nil `map[string]interface{}`:
the members stored, in the order written (`none`: the map stays nil, for `null`). -/
def unmarshalMap (body : String) : Except GoError (Option (List (String × JSON))) :=
  match lex (body.data.length + 1) body.data with
  | none => .error .jsonInvalid
  | some toks =>
    match parseTokens toks [] .value with
    | none => .error .jsonInvalid
    | some .null => .ok none
    | some (.obj members) => if numbersFit toks then .ok (some members) else .error .jsonType
    | some _ => .error .jsonType

/-- The index expression `m[key]` on the map `unmarshalMap` filled: a key written twice keeps
its last value; `none` is what a missing key or a nil map gives. -/
def mapIndex (m : Option (List (String × JSON))) (key : String) : Option JSON :=
  match m with
  | none => none
  | some members =>
    match members.reverse.find? (fun kv => kv.1 = key) with
    | some kv => some kv.2
    | none => none

/-- Simple case folding to the lower-case ASCII letter, as far as it reaches ASCII: the
capitals, the long s (U+017F) and the Kelvin sign (U+212A). -/
def foldChar (c : Char) : Char :=
  if 'A' ≤ c ∧ c ≤ 'Z' then Char.ofNat (c.toNat + 32)
  else if c.toNat = 0x17F then 's'
  else if c.toNat = 0x212A then 'k'
  else c

/-- Whether an object key selects the struct field tagged `name` (a lower-case ASCII name):
`encoding/json` matches keys to fields without regard to case. -/
def fieldMatches (name key : String) : Bool := key.data.map foldChar = name.data

/-- Store a JSON value in a `float64` field. -/
def decodeFloat (cur : F64) : JSON → Except GoError F64
  | .null => .ok cur
  | .num n =>
    match F64.ofDecimal n.neg n.mant n.exp10 with
    | .fin s u => .ok (.fin s u)
    | _ => .error .jsonType
  | _ => .error .jsonType

/-- Store a JSON value in an `int` field (64 bits). -/
def decodeInt (cur : Int) : JSON → Except GoError Int
  | .null => .ok cur
  | .num n =>
    if n.integral ∧ (n.neg = true → n.mant ≤ 2 ^ 63) ∧ (n.neg = false → n.mant < 2 ^ 63) then
      .ok (if n.neg then - (n.mant : Int) else (n.mant : Int))
    else .error .jsonType
  | _ => .error .jsonType

/-- Store a JSON value in a `string` field. -/
def decodeString (cur : String) : JSON → Except GoError String
  | .null => .ok cur
  | .str s => .ok s
  | _ => .error .jsonType

/-- Store a JSON value in a struct: each member is stored, in the order written, in the
field its key selects (`step`), over what the struct holds already. -/
def decodeStruct {α : Type} (step : α → String → JSON → Except GoError α) (cur : α) :
    JSON → Except GoError α
  | .null => .ok cur
  | .obj members => members.foldlM (fun acc kv => step acc kv.1 kv.2) cur
  | _ => .error .jsonType

/-- The elements of a JSON array stored in a slice: element `i` is stored over the element
the slice already has at `i`, over a zero element past its end. -/
def decodeElems {α : Type} (elem : α → JSON → Except GoError α) (zero : α) :
    List α → List JSON → Except GoError (List α)
  | _, [] => .ok []
  | cur, j :: js =>
    match elem (cur.headD zero) j with
    | .error e => .error e
    | .ok x =>
      match decodeElems elem zero cur.tail js with
      | .error e => .error e
      | .ok xs => .ok (x :: xs)

/-- Store a JSON value in a slice field. -/
def decodeSlice {α : Type} (elem : α → JSON → Except GoError α) (zero : α) (cur : List α) :
    JSON → Except GoError (List α)
  | .null => .ok []
  | .arr items => decodeElems elem zero cur items
  | _ => .error .jsonType

/-! ## The data model of `main.go` -/

/-- Coord represents the coordinates of the location. -/
structure Coord where
  Lon : F64
  Lat : F64
  deriving DecidableEq

/-- Weather represents weather information. -/
structure Weather where
  ID : Int
  Main : String
  Description : String
  Icon : String
  deriving DecidableEq

/-- Main represents main weather information. -/
structure Main where
  Temp : F64
  FeelsLike : F64
  TempMin : F64
  TempMax : F64
  Pressure : Int
  Humidity : Int
  deriving DecidableEq

/-- Wind represents wind information. -/
structure Wind where
  Speed : F64
  Deg : Int
  Gust : F64
  deriving DecidableEq

/-- Clouds represents cloud information. -/
structure Clouds where
  All : Int
  deriving DecidableEq

/-- Sys represents system information. -/
structure Sys where
  Typ : Int    -- the field `Type`, a reserved word here
  ID : Int
  Country : String
  Sunrise : Int
  Sunset : Int
  deriving DecidableEq

/-- WeatherData represents the structure of the JSON response from the weather API. -/
structure WeatherData where
  Coord : Coord
  Weather : List Weather
  Base : String
  Main : Main
  Visibility : Int
  Wind : Wind
  Clouds : Clouds
  Dt : Int
  Sys : Sys
  Timezone : Int
  ID : Int
  Name : String
  Cod : Int
  deriving DecidableEq

/-- The float64 zero value. -/
def F64.zero : F64 := .fin false 0

/-- The zero value of `Coord`. -/
def Coord.zero : WeatherApp.Coord := ⟨F64.zero, F64.zero⟩

/-- The zero value of `Weather`. -/
def Weather.zero : WeatherApp.Weather := ⟨0, "", "", ""⟩

/-- The zero value of `Main`. -/
def Main.zero : WeatherApp.Main := ⟨F64.zero, F64.zero, F64.zero, F64.zero, 0, 0⟩

/-- The zero value of `Wind`. -/
def Wind.zero : WeatherApp.Wind := ⟨F64.zero, 0, F64.zero⟩

/-- The zero value of `Sys`. -/
def Sys.zero : WeatherApp.Sys := ⟨0, 0, "", 0, 0⟩

/-- The zero value of `WeatherData` (`var weatherData WeatherData`). -/
def WeatherData.zero : WeatherData :=
  { Coord := Coord.zero, Weather := [], Base := "", Main := Main.zero, Visibility := 0,
    Wind := Wind.zero, Clouds := ⟨0⟩, Dt := 0, Sys := Sys.zero, Timezone := 0, ID := 0,
    Name := "", Cod := 0 }

/-- One member of a `coord` object (tags `lon`, `lat`). -/
def Coord.setField (c : WeatherApp.Coord) (key : String) (v : JSON) :
    Except GoError WeatherApp.Coord :=
  if fieldMatches "lon" key then (decodeFloat c.Lon v).map (fun x => { c with Lon := x })
  else if fieldMatches "lat" key then (decodeFloat c.Lat v).map (fun x => { c with Lat := x })
  else .ok c

/-- One member of a `weather` element (tags `id`, `main`, `description`, `icon`). -/
def Weather.setField (w : WeatherApp.Weather) (key : String) (v : JSON) :
    Except GoError WeatherApp.Weather :=
  if fieldMatches "id" key then (decodeInt w.ID v).map (fun x => { w with ID := x })
  else if fieldMatches "main" key then
    (decodeString w.Main v).map (fun x => { w with Main := x })
  else if fieldMatches "description" key then
    (decodeString w.Description v).map (fun x => { w with Description := x })
  else if fieldMatches "icon" key then
    (decodeString w.Icon v).map (fun x => { w with Icon := x })
  else .ok w

/-- One member of a `main` object. -/
def Main.setField (m : WeatherApp.Main) (key : String) (v : JSON) :
    Except GoError WeatherApp.Main :=
  if fieldMatches "temp" key then (decodeFloat m.Temp v).map (fun x => { m with Temp := x })
  else if fieldMatches "feels_like" key then
    (decodeFloat m.FeelsLike v).map (fun x => { m with FeelsLike := x })
  else if fieldMatches "temp_min" key then
    (decodeFloat m.TempMin v).map (fun x => { m with TempMin := x })
  else if fieldMatches "temp_max" key then
    (decodeFloat m.TempMax v).map (fun x => { m with TempMax := x })
  else if fieldMatches "pressure" key then
    (decodeInt m.Pressure v).map (fun x => { m with Pressure := x })
  else if fieldMatches "humidity" key then
    (decodeInt m.Humidity v).map (fun x => { m with Humidity := x })
  else .ok m

/-- One member of a `wind` object. -/
def Wind.setField (w : WeatherApp.Wind) (key : String) (v : JSON) :
    Except GoError WeatherApp.Wind :=
  if fieldMatches "speed" key then (decodeFloat w.Speed v).map (fun x => { w with Speed := x })
  else if fieldMatches "deg" key then (decodeInt w.Deg v).map (fun x => { w with Deg := x })
  else if fieldMatches "gust" key then (decodeFloat w.Gust v).map (fun x => { w with Gust := x })
  else .ok w

/-- One member of a `clouds` object. -/
def Clouds.setField (c : WeatherApp.Clouds) (key : String) (v : JSON) :
    Except GoError WeatherApp.Clouds :=
  if fieldMatches "all" key then (decodeInt c.All v).map (fun x => { c with All := x })
  else .ok c

/-- One member of a `sys` object. -/
def Sys.setField (s : WeatherApp.Sys) (key : String) (v : JSON) :
    Except GoError WeatherApp.Sys :=
  if fieldMatches "type" key then (decodeInt s.Typ v).map (fun x => { s with Typ := x })
  else if fieldMatches "id" key then (decodeInt s.ID v).map (fun x => { s with ID := x })
  else if fieldMatches "country" key then
    (decodeString s.Country v).map (fun x => { s with Country := x })
  else if fieldMatches "sunrise" key then
    (decodeInt s.Sunrise v).map (fun x => { s with Sunrise := x })
  else if fieldMatches "sunset" key then
    (decodeInt s.Sunset v).map (fun x => { s with Sunset := x })
  else .ok s

/-- One member of the top-level object, by the tags of `WeatherData`. -/
def WeatherData.setField (w : WeatherData) (key : String) (v : JSON) :
    Except GoError WeatherData :=
  if fieldMatches "coord" key then
    (decodeStruct Coord.setField w.Coord v).map (fun x => { w with Coord := x })
  else if fieldMatches "weather" key then
    (decodeSlice (decodeStruct Weather.setField) Weather.zero w.Weather v).map
      (fun x => { w with Weather := x })
  else if fieldMatches "base" key then
    (decodeString w.Base v).map (fun x => { w with Base := x })
  else if fieldMatches "main" key then
    (decodeStruct Main.setField w.Main v).map (fun x => { w with Main := x })
  else if fieldMatches "visibility" key then
    (decodeInt w.Visibility v).map (fun x => { w with Visibility := x })
  else if fieldMatches "wind" key then
    (decodeStruct Wind.setField w.Wind v).map (fun x => { w with Wind := x })
  else if fieldMatches "clouds" key then
    (decodeStruct Clouds.setField w.Clouds v).map (fun x => { w with Clouds := x })
  else if fieldMatches "dt" key then (decodeInt w.Dt v).map (fun x => { w with Dt := x })
  else if fieldMatches "sys" key then
    (decodeStruct Sys.setField w.Sys v).map (fun x => { w with Sys := x })
  else if fieldMatches "timezone" key then
    (decodeInt w.Timezone v).map (fun x => { w with Timezone := x })
  else if fieldMatches "id" key then (decodeInt w.ID v).map (fun x => { w with ID := x })
  else if fieldMatches "name" key then
    (decodeString w.Name v).map (fun x => { w with Name := x })
  else if fieldMatches "cod" key then (decodeInt w.Cod v).map (fun x => { w with Cod := x })
  else .ok w

/-- The call `json.Unmarshal(body, &weatherData)` for a zero `WeatherData`. -/
def unmarshalWeatherData (body : String) : Except GoError WeatherData :=
  match parseJSON body with
  | none => .error .jsonInvalid
  | some v => decodeStruct WeatherData.setField WeatherData.zero v

/-! ## `url.QueryEscape` -/

/-- The UTF-8 bytes of a character. -/
def utf8Bytes (c : Char) : List Nat :=
  let n := c.toNat
  if n < 0x80 then [n]
  else if n < 0x800 then [0xC0 + n / 64, 0x80 + n % 64]
  else if n < 0x10000 then [0xE0 + n / 4096, 0x80 + n / 64 % 64, 0x80 + n % 64]
  else [0xF0 + n / 262144, 0x80 + n / 4096 % 64, 0x80 + n / 64 % 64, 0x80 + n % 64]

/-- The bytes of a Go string. -/
def goBytes (s : String) : List Nat := (s.data.map utf8Bytes).flatten

/-- The unreserved bytes of RFC 3986: letters, digits, `-`, `_`, `.`, `~`. -/
def isUnreserved (b : Nat) : Bool :=
  (97 ≤ b && b ≤ 122) || (65 ≤ b && b ≤ 90) || (48 ≤ b && b ≤ 57) ||
    b = 45 || b = 95 || b = 46 || b = 126

/-- Whether `url.QueryEscape` escapes the byte (`shouldEscape` in query-component mode):
every byte but the unreserved ones. -/
def shouldEscape (b : Nat) : Bool := !isUnreserved b

/-- The digit of `"0123456789ABCDEF"` at `n`. -/
def upperHex (n : Nat) : Char := if n < 10 then Char.ofNat (48 + n) else Char.ofNat (55 + n)

/-- How one byte is written by `url.QueryEscape`. -/
def escapeByte (b : Nat) : List Char :=
  if b = 32 then ['+']
  else if shouldEscape b then ['%', upperHex (b / 16), upperHex (b % 16)]
  else [Char.ofNat b]

/-- The function `url.QueryEscape`. -/
def QueryEscape (s : String) : String := String.mk ((goBytes s).map escapeByte).flatten

/-- The bytes `url.QueryUnescape` gives back, `none` for a `%` not followed by two
hexadecimal digits. -/
def unescapeChars : List Char → Option (List Nat)
  | [] => some []
  | c :: rest =>
    if c = '%' then
      match rest with
      | a :: b :: rest1 =>
        match hexVal a, hexVal b, unescapeChars rest1 with
        | some x, some y, some bs => some ((x * 16 + y) :: bs)
        | _, _, _ => none
      | _ => none
    else if c = '+' then (unescapeChars rest).map (List.cons 32)
    else (unescapeChars rest).map (fun bs => utf8Bytes c ++ bs)

/-- The function `url.QueryUnescape`, on the bytes of the result. -/
def QueryUnescape (s : String) : Option (List Nat) := unescapeChars s.data

/-- The text before the first `sep`, and the text after it (`none` without a `sep`). -/
def cut (sep : Char) : List Char → List Char × Option (List Char)
  | [] => ([], none)
  | c :: rest =>
    if c = sep then ([], some rest) else (c :: (cut sep rest).1, (cut sep rest).2)

/-- The pieces of a text between the occurrences of `sep`. -/
def splitOn (sep : Char) : List Char → List (List Char)
  | [] => [[]]
  | c :: rest =>
    if c = sep then [] :: splitOn sep rest
    else
      match splitOn sep rest with
      | [] => [[c]]
      | p :: ps => (c :: p) :: ps

/-- The parameters of a query string: the pieces between `&` that are not empty, each cut
at its first `=` into a name and a value (both still escaped). -/
def queryParams (query : String) : List (String × String) :=
  ((splitOn '&' query.data).filter (fun p => !p.isEmpty)).map
    (fun p => (String.mk (cut '=' p).1, String.mk ((cut '=' p).2.getD [])))

/-! ## The program: what it is given and what it does -/

/-- The two colours the program prints in. -/
inductive Color where
  | green | cyan
  deriving DecidableEq

/-- What a run does to the outside world, in order. -/
inductive Event where
  | println (text : String)                 -- `fmt.Println`: the text written to stdout
  | color (c : Color) (text : String)       -- `color.Green` / `color.Cyan`: the text written
  | logFatal (text : String) (err : Option GoError)  -- the operands of `log.Fatal`
  | scan                                    -- a call of `fmt.Scan` on stdin
  | httpGet (url : String)                  -- a call of `http.Get`
  deriving DecidableEq

/-- How a piece of the program ends: it returns, the process exits, or it panics. -/
inductive Outcome (α : Type) where
  | ret (a : α)
  | exit (code : Nat)
  | panic (msg : String)
  deriving DecidableEq

/-- A piece of the program run to its end: the events, then the outcome. -/
structure Run (α : Type) where
  events : List Event
  outcome : Outcome α
  deriving DecidableEq

/-- Sequencing: what follows runs only after a return. -/
def Run.bind {α β : Type} (m : Run α) (f : α → Run β) : Run β :=
  match m.outcome with
  | .ret a => ⟨m.events ++ (f a).events, (f a).outcome⟩
  | .exit code => ⟨m.events, .exit code⟩
  | .panic msg => ⟨m.events, .panic msg⟩

instance : Monad Run where
  pure a := ⟨[], .ret a⟩
  bind := Run.bind

/-- One event. -/
def emit (e : Event) : Run Unit := ⟨[e], .ret ()⟩

/-- The call `os.Exit(code)`. -/
def osExit {α : Type} (code : Nat) : Run α := ⟨[], .exit code⟩

/-- The call `log.Fatal(text, err)`: the message, then `os.Exit(1)`. -/
def logFatal {α : Type} (text : String) (err : Option GoError) : Run α :=
  ⟨[.logFatal text err], .exit 1⟩

/-- The call `fmt.Println(text)`. -/
def println (text : String) : Run Unit := emit (.println (text ++ "\n"))

/-- The calls `color.Green` and `color.Cyan`, given the text formatted: the package adds a
newline to a format that does not end in one.  In `main.go` the formats that take operands
all end in a newline and the others are printed as they are, so the text ends in a newline
exactly when its format does. -/
def colorPrint (c : Color) (text : String) : Run Unit :=
  emit (.color c (if text.data.getLast? = some '\n' then text else text ++ "\n"))

/-- The index expression `xs[i]`, which panics out of range. -/
def index {α : Type} (xs : List α) (i : Nat) : Run α :=
  match xs.get? i with
  | some x => pure x
  | none =>
    ⟨[], .panic ("runtime error: index out of range [" ++ natToDec i ++ "] with length "
      ++ natToDec xs.length)⟩

/-- The exit status of the process for a run of `main`: 0 after a return, 2 after a panic. -/
def exitStatus (r : Run Unit) : Nat :=
  match r.outcome with
  | .ret _ => 0
  | .exit code => code
  | .panic _ => 2

/-- An HTTP response: the status code, and what `io.ReadAll(resp.Body)` returns (the
bytes read and the error, if any). -/
structure Response where
  StatusCode : Int
  body : String
  readErr : Option GoError
  deriving DecidableEq

/-- What the outside world gives one run of the program, from the point where
`flag.Parse()` has accepted the command line. -/
structure Env where
  dotenvLoaded : Bool                       -- `godotenv.Load()` returned no error
  locationFlag : String                     -- the value of `--location` after `flag.Parse()`
  apiKey : Option String                    -- `os.LookupEnv("OPENWEATHERMAP_API_KEY")`
  scanOption : Except GoError Int           -- what `fmt.Scan(&option)` reads
  scanLocation : Except GoError String      -- what `fmt.Scan(locationFlag)` reads
  http : String → Except GoError Response   -- what `http.Get` returns for a URL

/-- The weather endpoint. -/
def weatherAPIURL : String := "https://api.openweathermap.org/data/2.5/weather"

/-- The geolocation endpoint. -/
def ipLocationAPIURL : String := "https://ipapi.co/json"

/-- The function `getUserLocation` of `main.go`: the city and the error returned. -/
def getUserLocation (env : Env) : Run (String × Option GoError) := do
  -- Make a request to get user's approximate geolocation based on IP
  emit (.httpGet ipLocationAPIURL)
  match env.http ipLocationAPIURL with
  | .error err => pure ("", some err)
  | .ok resp =>
    -- Check for errors in the API response
    if resp.StatusCode ≠ 200 then do
      println "Error fetching user location. Please enter a location manually."
      pure ("", some (.errorf ("API request failed with status code "
        ++ formatInt resp.StatusCode)))
    else
      -- Read the response body
      match resp.readErr with
      | some err => pure ("", some err)
      | none =>
        -- Parse the JSON response
        match unmarshalMap resp.body with
        | .error err => pure ("", some err)
        | .ok locationData =>
          -- Extract city from the location data
          match mapIndex locationData "city" with
          | some (.str city) => pure (city, none)
          | _ => pure ("", some (.errorf "City not found in user location data"))

/-- The URL `getWeatherData` requests. -/
def apiURL (location apiKey : String) : String :=
  weatherAPIURL ++ "?q=" ++ QueryEscape location ++ "&appid=" ++ apiKey

/-- The function `getWeatherData` of `main.go`: the pointer (nil: `none`) and the error
returned. -/
def getWeatherData (env : Env) (location apiKey : String) :
    Run (Option WeatherData × Option GoError) := do
  -- Make a GET request to the weather API
  emit (.httpGet (apiURL location apiKey))
  match env.http (apiURL location apiKey) with
  | .error err => pure (none, some err)
  | .ok resp =>
    -- Check for errors in the API response
    if resp.StatusCode ≠ 200 then do
      println ("API request failed with status code " ++ formatInt resp.StatusCode)
      println resp.body
      pure (none, some (.errorf ("API request failed with status code "
        ++ formatInt resp.StatusCode)))
    else
      -- Read the response body
      match resp.readErr with
      | some err => pure (none, some err)
      | none =>
        -- Parse the JSON response
        match unmarshalWeatherData resp.body with
        | .error err => pure (none, some err)
        | .ok weatherData => pure (some weatherData, none)

/-- The function `displayWeatherInfo` of `main.go`. -/
def displayWeatherInfo (weatherData : WeatherData) : Run Unit := do
  colorPrint .cyan ("Weather in " ++ weatherData.Name ++ ", " ++ weatherData.Sys.Country
    ++ ":\n")
  let first ← index weatherData.Weather 0
  colorPrint .cyan ("Description: " ++ first.Description ++ "\n")
  colorPrint .cyan ("Temperature: "
    ++ formatFloat2 (weatherData.Main.Temp.sub kelvinOffset) ++ "째C\n")
  colorPrint .cyan ("Feels Like: "
    ++ formatFloat2 (weatherData.Main.FeelsLike.sub kelvinOffset) ++ "째C\n")
  colorPrint .cyan ("Min Temperature: "
    ++ formatFloat2 (weatherData.Main.TempMin.sub kelvinOffset) ++ "째C\n")
  colorPrint .cyan ("Max Temperature: "
    ++ formatFloat2 (weatherData.Main.TempMax.sub kelvinOffset) ++ "째C\n")
  colorPrint .cyan ("Pressure: " ++ formatInt weatherData.Main.Pressure ++ " hPa\n")
  colorPrint .cyan ("Humidity: " ++ formatInt weatherData.Main.Humidity ++ "%\n")
  colorPrint .cyan ("Wind Speed: " ++ formatFloat2 weatherData.Wind.Speed ++ " m/s\n")
  colorPrint .cyan ("Cloudiness: " ++ formatInt weatherData.Clouds.All ++ "%\n")

/-- The function `fetchAndDisplayWeather` of `main.go`. -/
def fetchAndDisplayWeather (env : Env) (location apiKey : String) : Run Unit := do
  -- Fetch weather data from the API
  let (weatherData, err) ← getWeatherData env location apiKey
  match err with
  | some e => logFatal "Error fetching weather data:" (some e)
  | none =>
    -- Display weather information
    match weatherData with
    | some w => displayWeatherInfo w
    | none => ⟨[], .panic "runtime error: invalid memory address or nil pointer dereference"⟩

/-- The function `main` of `main.go`. -/
def main (env : Env) : Run Unit := do
  -- Load environment variables from .env file
  if !env.dotenvLoaded then
    logFatal "Error loading .env file" none
  -- Retrieve the API key from environment variable
  match env.apiKey with
  | none => do
    println "OpenWeatherMap API key not set. Exiting."
    osExit 1
  | some apiKey => do
    -- Display menu for the user to choose an option
    colorPrint .green "Choose an option:"
    colorPrint .cyan "1. Get weather for your location"
    colorPrint .cyan "2. Enter a specific location"
    colorPrint .green "Enter your choice (1 or 2): "
    emit .scan
    match env.scanOption with
    | .error readErr => logFatal "Error reading input:" (some readErr)
    | .ok option =>
      if option = 1 then do
        -- Get weather for the user's location
        let (userLocation, locErr) ← getUserLocation env
        match locErr with
        | some e => logFatal "Error getting user location:" (some e)
        | none => fetchAndDisplayWeather env userLocation apiKey
      else if option = 2 then do
        -- Get weather for a specific location
        let location ←
          if env.locationFlag = "" then do
            colorPrint .green "Enter the location: "
            emit .scan
            match env.scanLocation with
            | .ok s => pure s
            | .error _ => pure env.locationFlag
          else pure env.locationFlag
        -- Check if the location is not empty
        if location ≠ "" then
          fetchAndDisplayWeather env location apiKey
        else do
          println "Invalid location. Exiting."
          osExit 1
      else do
        println "Invalid option. Exiting."
        osExit 1

/-! ## Definitions used to state the properties -/

/-- The line that opens the report. -/
def headerLine (w : WeatherData) : Event :=
  .color .cyan ("Weather in " ++ w.Name ++ ", " ++ w.Sys.Country ++ ":\n")

/-- The nine report lines after the first, for a report whose first weather entry is
`first`. -/
def detailLines (w : WeatherData) (first : Weather) : List Event :=
  [ .color .cyan ("Description: " ++ first.Description ++ "\n"),
    .color .cyan ("Temperature: " ++ formatFloat2 (w.Main.Temp.sub kelvinOffset) ++ "째C\n"),
    .color .cyan ("Feels Like: " ++ formatFloat2 (w.Main.FeelsLike.sub kelvinOffset) ++ "째C\n"),
    .color .cyan ("Min Temperature: " ++ formatFloat2 (w.Main.TempMin.sub kelvinOffset)
      ++ "째C\n"),
    .color .cyan ("Max Temperature: " ++ formatFloat2 (w.Main.TempMax.sub kelvinOffset)
      ++ "째C\n"),
    .color .cyan ("Pressure: " ++ formatInt w.Main.Pressure ++ " hPa\n"),
    .color .cyan ("Humidity: " ++ formatInt w.Main.Humidity ++ "%\n"),
    .color .cyan ("Wind Speed: " ++ formatFloat2 w.Wind.Speed ++ " m/s\n"),
    .color .cyan ("Cloudiness: " ++ formatInt w.Clouds.All ++ "%\n") ]

/-- The menu, and the read of the choice. -/
def menuEvents : List Event :=
  [ .color .green "Choose an option:\n",
    .color .cyan "1. Get weather for your location\n",
    .color .cyan "2. Enter a specific location\n",
    .color .green "Enter your choice (1 or 2): \n",
    .scan ]

/-- The location prompt and its read, which happen only without a `--location` value. -/
def promptEvents (env : Env) : List Event :=
  if env.locationFlag = "" then [.color .green "Enter the location: \n", .scan] else []

/-- The location of menu choice 2 as the specification words it: the flag value if it is
not empty, otherwise the string read at the prompt (empty if nothing could be read). -/
def chosenLocation (env : Env) : String :=
  if env.locationFlag ≠ "" then env.locationFlag
  else
    match env.scanLocation with
    | .ok s => s
    | .error _ => ""

/-! ## Concrete runs -/

/-- The weather answer of the specification's end-to-end scenario. -/
def specBody : String :=
  "\x7b\"name\":\"London\",\"sys\":\x7b\"country\":\"GB\"\x7d,\"weather\":[\x7b\"description\":\"clear sky\"\x7d],\"main\":\x7b\"temp\":288.15,\"feels_like\":287.0,\"temp_min\":286.0,\"temp_max\":290.0,\"pressure\":1012,\"humidity\":60\x7d,\"wind\":\x7b\"speed\":3.5\x7d,\"clouds\":\x7b\"all\":10\x7d\x7d"

/-- The URL requested for London with the key `KEY`. -/
def londonURL : String := "https://api.openweathermap.org/data/2.5/weather?q=London&appid=KEY"

/-- A run started with `--location=London` and an API key, in which the user types
`choice` at the menu and the weather service answers London with `weather`; no other
host answers and nothing more can be read from standard input. -/
def londonEnv (choice : Except GoError Int) (weather : Response) : Env :=
  { dotenvLoaded := true
    locationFlag := "London"
    apiKey := some "KEY"
    scanOption := choice
    scanLocation := .error (.external "unexpected newline")
    http := fun url => if url = londonURL then .ok weather else .error (.external "no such host") }

/-- A run without `--location`, in which the user types 1 at the menu, the geolocation
service answers 200 with the text `geo` and the weather service answers `weather`. -/
def geoEnv (geo : String) (weather : Response) : Env :=
  { dotenvLoaded := true
    locationFlag := ""
    apiKey := some "KEY"
    scanOption := .ok 1
    scanLocation := .error (.external "unexpected newline")
    http := fun url => if url = ipLocationAPIURL then .ok ⟨200, geo, none⟩ else .ok weather }

/-- The weather service's answer to a request without a place name. -/
def nothingToGeocode : Response :=
  ⟨400, "\x7b\"cod\":\"400\",\"message\":\"Nothing to geocode\"\x7d", none⟩

/-- A report with one weather entry and the temperature 300.00 Kelvin. -/
def report300 : WeatherData :=
  { WeatherData.zero with
    Weather := [Weather.zero]
    Main := { Main.zero with Temp := F64.ofDecimal false 30000 (-2) } }

/-- A report with one weather entry and the temperature 263.15 Kelvin. -/
def report26315 : WeatherData :=
  { WeatherData.zero with
    Weather := [Weather.zero]
    Main := { Main.zero with Temp := F64.ofDecimal false 26315 (-2) } }

/-! ## What a temperature line shows, stated without the code's own functions -/

/-- The double nearest 273.15, in units of `2^-1074`: `4805305618032230 * 2^-44`. -/
def kelvinOffsetUnits : Nat := 4805305618032230 * 2 ^ 1030

/-- The exact magnitude, in units of `2^-1074`, of the difference between the finite double
`± a` units and the double nearest 273.15. -/
def exactDiff (s : Bool) (a : Nat) : Nat :=
  if s then a + kelvinOffsetUnits
  else if kelvinOffsetUnits ≤ a then a - kelvinOffsetUnits
  else kelvinOffsetUnits - a

/-- Whether the finite double `± a` units is below the double nearest 273.15 (negative
zero counts as negative, as it does in the subtraction). -/
def belowOffset (s : Bool) (a : Nat) : Bool := s || decide (a < kelvinOffsetUnits)

/-- A number of hundredths written with two decimals and its sign. -/
def fixed2 (neg : Bool) (h : Nat) : String :=
  (if neg then "-" else "") ++ Nat.repr (h / 100) ++ "."
    ++ (if h % 100 < 10 then "0" else "") ++ Nat.repr (h % 100)

/-- The number `h` of hundredths is the one nearest to `u` units of `2^-1074`, the even one
of the two when `u` lies half way. -/
def NearestHundredth (u h : Nat) : Prop :=
  2 * (h * 2 ^ 1074) ≤ 2 * (u * 100) + 2 ^ 1074 ∧
    2 * (u * 100) ≤ 2 * (h * 2 ^ 1074) + 2 ^ 1074 ∧
    (2 * (h * 2 ^ 1074) = 2 * (u * 100) + 2 ^ 1074 → h % 2 = 0) ∧
    (2 * (u * 100) = 2 * (h * 2 ^ 1074) + 2 ^ 1074 → h % 2 = 0)

/-- The text a temperature line shows for the Kelvin field `± a` units.  There is a
magnitude `u` within `2^-53` of the exact difference between the field and the double
nearest 273.15 (the float64 difference); the text is the hundredth nearest to `u` with two
decimals, with a minus sign when the field is below the constant, or the text of an
infinity when `u` is out of the range of float64. -/
def CelsiusText (s : Bool) (a : Nat) (t : String) : Prop :=
  ∃ u : Nat,
    2 ^ 53 * (u - exactDiff s a) ≤ exactDiff s a ∧
    2 ^ 53 * (exactDiff s a - u) ≤ exactDiff s a ∧
    ((u < 2 ^ 2098 ∧ ∃ h : Nat, NearestHundredth u h ∧ t = fixed2 (belowOffset s a) h) ∨
      (2 ^ 2098 ≤ u ∧ t = if belowOffset s a then "-Inf" else "+Inf"))

/-- The digits taken and what follows them make up the input. -/
theorem takeDigits_append (cs : List Char) : (takeDigits cs).1 ++ (takeDigits cs).2 = cs := by
  induction cs with
  | nil => rfl
  | cons c rest ih =>
    unfold takeDigits
    split
    · simp [ih]
    · rfl

/-- What follows the digits is no longer than the input, and shorter by the digits. -/
theorem takeDigits_length (cs : List Char) :
    (takeDigits cs).1.length + (takeDigits cs).2.length = cs.length := by
  have h := congrArg List.length (takeDigits_append cs)
  simpa using h

/-- A string literal consumes at least its closing quote. -/
theorem lexString_length : ∀ (n : Nat) (cs : List Char) (pending : Option Nat)
    (acc : List Char) (s : String) (rest : List Char), cs.length ≤ n →
    lexString cs pending acc = some (s, rest) → rest.length < cs.length := by
  intro n
  induction n with
  | zero =>
    intro cs pending acc s rest hn h
    have hnil : cs = [] := List.eq_nil_of_length_eq_zero (Nat.le_zero.mp hn)
    subst hnil
    simp [lexString] at h
  | succ n ih =>
    intro cs pending acc s rest hn h
    cases cs with
    | nil => simp [lexString] at h
    | cons c tail =>
      rw [lexString.eq_def] at h
      simp only [List.length_cons] at hn ⊢
      simp only at h
      split at h
      · have hrest : tail = rest := (Prod.mk.inj (Option.some.inj h)).2
        rw [← hrest]
        exact Nat.lt_succ_self _
      · split at h
        · cases tail with
          | nil => exact Option.noConfusion h
          | cons e rest1 =>
            simp only [List.length_cons] at hn ⊢
            simp only at h
            split at h
            · split at h
              · rename_i h1 h2 h3 h4 rest2
                simp only [List.length_cons] at hn ⊢
                split at h
                · exact Option.noConfusion h
                · split at h
                  · have := ih rest2 _ _ s rest (by omega) h
                    omega
                  · split at h
                    · split at h
                      · have := ih rest2 _ _ s rest (by omega) h
                        omega
                      · have := ih rest2 _ _ s rest (by omega) h
                        omega
                    · have := ih rest2 _ _ s rest (by omega) h
                      omega
              · exact Option.noConfusion h
            · split at h
              · have := ih rest1 _ _ s rest (by omega) h
                omega
              · exact Option.noConfusion h
        · split at h
          · exact Option.noConfusion h
          · have := ih tail _ _ s rest (by omega) h
            omega

/-- A fraction consumes nothing or more. -/
theorem lexFraction_length (cs fs rest : List Char) (h : lexFraction cs = some (fs, rest)) :
    rest.length ≤ cs.length := by
  unfold lexFraction at h
  split at h
  · rename_i tail
    have hlen := takeDigits_length tail
    split at h
    · exact Option.noConfusion h
    · rename_i ds rest1 _ heq
      have hrest : rest1 = rest := (Prod.mk.inj (Option.some.inj h)).2
      rw [heq] at hlen
      simp only [List.length_cons] at hlen ⊢
      rw [← hrest]
      omega
  · have hrest : cs = rest := (Prod.mk.inj (Option.some.inj h)).2
    rw [hrest]

/-- The digits of an exponent consume nothing or more. -/
theorem lexExpDigits_length (negative : Bool) (cs : List Char) (e : Int) (rest : List Char)
    (h : lexExpDigits negative cs = some (e, rest)) : rest.length ≤ cs.length := by
  unfold lexExpDigits at h
  have hlen := takeDigits_length cs
  split at h
  · exact Option.noConfusion h
  · rename_i ds rest1 _ heq
    have hrest : rest1 = rest := (Prod.mk.inj (Option.some.inj h)).2
    rw [heq] at hlen
    simp only at hlen
    rw [← hrest]
    omega

/-- An exponent consumes nothing or more. -/
theorem lexExponent_length (cs : List Char) (e : Option Int) (rest : List Char)
    (h : lexExponent cs = some (e, rest)) : rest.length ≤ cs.length := by
  unfold lexExponent at h
  split at h
  · rename_i c tail
    split at h
    · split at h
      all_goals
        simp only [Option.map_eq_some', Prod.mk.injEq] at h
        obtain ⟨r, hr, _, hrest⟩ := h
        have := lexExpDigits_length _ _ r.1 r.2 hr
        simp only [List.length_cons] at this ⊢
        rw [← hrest]
        omega
    · have hrest : c :: tail = rest := (Prod.mk.inj (Option.some.inj h)).2
      rw [← hrest]
  · have hrest : [] = rest := (Prod.mk.inj (Option.some.inj h)).2
    rw [← hrest]

/-- An unsigned number consumes at least one digit. -/
theorem lexUnsigned_length (neg : Bool) (cs : List Char) (n : JNum) (rest : List Char)
    (h : lexUnsigned neg cs = some (n, rest)) : rest.length < cs.length := by
  unfold lexUnsigned at h
  have hlen := takeDigits_length cs
  split at h
  · exact Option.noConfusion h
  · rename_i d ds rest0 heq
    rw [heq] at hlen
    simp only [List.length_cons] at hlen
    simp only at h
    split at h
    · exact Option.noConfusion h
    · rename_i fs rest1 hfrac
      have h1 := lexFraction_length _ _ _ hfrac
      split at h
      · exact Option.noConfusion h
      · rename_i e rest2 hexp
        have h2 := lexExponent_length _ _ _ hexp
        have hrest : rest2 = rest := (Prod.mk.inj (Option.some.inj h)).2
        rw [← hrest]
        have h3 : (if d = '0' then ds ++ rest0 else rest0).length ≤ ds.length + rest0.length := by
          split <;> simp
        omega

/-- A number consumes at least one character. -/
theorem lexNumber_length (cs : List Char) (n : JNum) (rest : List Char)
    (h : lexNumber cs = some (n, rest)) : rest.length < cs.length := by
  unfold lexNumber at h
  split at h
  · have := lexUnsigned_length _ _ _ _ h
    simp only [List.length_cons]
    omega
  · exact lexUnsigned_length _ _ _ _ h

/-- A token leaves no more than what followed its first character. -/
theorem nextToken_length (c : Char) (rest : List Char) (t : Option Token)
    (rest1 : List Char) (h : nextToken c rest = some (t, rest1)) :
    rest1.length ≤ rest.length := by
  unfold nextToken at h
  repeat' split at h
  all_goals first
    | exact Option.noConfusion h
    | (have hrest : rest = rest1 := (Prod.mk.inj (Option.some.inj h)).2
       rw [hrest])
    | skip
  · rename_i s r hls
    have hrest : r = rest1 := (Prod.mk.inj (Option.some.inj h)).2
    have := lexString_length rest.length rest none [] s r (Nat.le_refl _) hls
    rw [← hrest]
    omega
  · rename_i n r hln
    have hrest : r = rest1 := (Prod.mk.inj (Option.some.inj h)).2
    have := lexNumber_length (c :: rest) n r hln
    simp only [List.length_cons] at this
    rw [← hrest]
    omega
  all_goals
    rename_i r heq
    have hrest : r = rest1 := (Prod.mk.inj (Option.some.inj h)).2
    have hlen := congrArg List.length heq
    simp only [List.length_cons] at hlen
    rw [← hrest]
    omega

/-- More fuel than the text is long is as good as any: the lexer then never stops for
lack of fuel. -/
theorem lex_fuel : ∀ (n : Nat) (cs : List Char) (fuel1 fuel2 : Nat), cs.length ≤ n →
    cs.length < fuel1 → cs.length < fuel2 → lex fuel1 cs = lex fuel2 cs := by
  intro n
  induction n with
  | zero =>
    intro cs fuel1 fuel2 hn _ _
    have hnil : cs = [] := List.eq_nil_of_length_eq_zero (Nat.le_zero.mp hn)
    subst hnil
    cases fuel1 <;> cases fuel2 <;> rfl
  | succ n ih =>
    intro cs fuel1 fuel2 hn h1 h2
    cases cs with
    | nil => cases fuel1 <;> cases fuel2 <;> rfl
    | cons c rest =>
      simp only [List.length_cons] at hn h1 h2
      obtain ⟨f1, rfl⟩ : ∃ f, fuel1 = f + 1 := ⟨fuel1 - 1, by omega⟩
      obtain ⟨f2, rfl⟩ : ∃ f, fuel2 = f + 1 := ⟨fuel2 - 1, by omega⟩
      simp only [lex]
      cases hnt : nextToken c rest with
      | none => rfl
      | some p =>
        obtain ⟨t, rest1⟩ := p
        have hlen := nextToken_length c rest t rest1 hnt
        have hih := ih rest1 f1 f2 (by omega) (by omega) (by omega)
        cases t with
        | none => exact hih
        | some t => simp only [hih]

/-- The text `parseJSON` reads is lexed with fuel to spare. -/
theorem parseJSON_fuel (body : String) (fuel : Nat) (h : body.data.length < fuel) :
    parseJSON body =
      (match lex fuel body.data with
       | none => none
       | some toks => parseTokens toks [] .value) := by
  unfold parseJSON
  rw [lex_fuel body.data.length body.data (body.data.length + 1) fuel (Nat.le_refl _)
    (Nat.lt_succ_self _) h]

/-! ## The `Run` monad -/

theorem run_pure {α : Type} (a : α) : (pure a : Run α) = ⟨[], .ret a⟩ := rfl

theorem run_bind {α β : Type} (m : Run α) (f : α → Run β) : (m >>= f) = Run.bind m f := rfl

/-- A text that ends in a newline is printed as it is. -/
theorem colorPrint_append (c : Color) (t u : String) (hu : u.data.getLast? = some '\n') :
    colorPrint c (t ++ u) = ⟨[.color c (t ++ u)], .ret ()⟩ := by
  have h : (t ++ u).data.getLast? = some '\n' := by
    cases hd : u.data with
    | nil => simp [hd] at hu
    | cons x xs =>
      rw [String.data_append, hd, List.getLast?_append_cons, ← hd]
      cases hl : (x :: xs).getLast? <;> simp_all
  unfold colorPrint emit
  rw [if_pos h]

/-- A text that does not end in a newline gets one. -/
theorem colorPrint_plain (c : Color) (t : String) (ht : t.data.getLast? ≠ some '\n') :
    colorPrint c t = ⟨[.color c (t ++ "\n")], .ret ()⟩ := by
  simp [colorPrint, emit, ht]

/-! ## `displayWeatherInfo` -/

/-- With a first weather entry the report is the header and the nine detail lines. -/
theorem displayWeatherInfo_cons (w : WeatherData) (first : Weather) (rest : List Weather)
    (h : w.Weather = first :: rest) :
    displayWeatherInfo w = ⟨headerLine w :: detailLines w first, .ret ()⟩ := by
  simp [displayWeatherInfo, h, index, run_bind, run_pure, Run.bind, headerLine, detailLines,
    colorPrint_append _ _ ":\n" (by decide), colorPrint_append _ _ "\n" (by decide),
    colorPrint_append _ _ "째C\n" (by decide), colorPrint_append _ _ " hPa\n" (by decide),
    colorPrint_append _ _ "%\n" (by decide), colorPrint_append _ _ " m/s\n" (by decide)]

/-- Without a weather entry the header is printed and the index expression panics. -/
theorem displayWeatherInfo_nil (w : WeatherData) (h : w.Weather = []) :
    displayWeatherInfo w =
      ⟨[headerLine w], .panic "runtime error: index out of range [0] with length 0"⟩ := by
  simp [displayWeatherInfo, h, index, run_bind, run_pure, Run.bind, headerLine,
    colorPrint_append _ _ ":\n" (by decide)]
  decide

/-! ## `getWeatherData` and `fetchAndDisplayWeather` -/

/-- The answer of `getWeatherData` to a response whose status is not 200. -/
theorem getWeatherData_not_ok (env : Env) (location apiKey : String) (resp : Response)
    (hresp : env.http (apiURL location apiKey) = .ok resp) (hs : resp.StatusCode ≠ 200) :
    getWeatherData env location apiKey =
      ⟨[.httpGet (apiURL location apiKey),
        .println ("API request failed with status code " ++ formatInt resp.StatusCode ++ "\n"),
        .println (resp.body ++ "\n")],
       .ret (none, some (.errorf ("API request failed with status code "
         ++ formatInt resp.StatusCode)))⟩ := by
  simp [getWeatherData, hresp, hs, run_bind, run_pure, Run.bind, emit, println]

/-- The answer of `getWeatherData` to a 200 response that was read whole. -/
theorem getWeatherData_ok (env : Env) (location apiKey : String) (resp : Response)
    (hresp : env.http (apiURL location apiKey) = .ok resp) (hs : resp.StatusCode = 200)
    (hread : resp.readErr = none) :
    getWeatherData env location apiKey =
      ⟨[.httpGet (apiURL location apiKey)],
       .ret (match unmarshalWeatherData resp.body with
             | .ok w => (some w, none)
             | .error e => (none, some e))⟩ := by
  cases hu : unmarshalWeatherData resp.body <;>
    simp [getWeatherData, hresp, hs, hread, hu, run_bind, run_pure, Run.bind, emit]

/-- The three ways `fetchAndDisplayWeather` ends: a fatal error before any report line, the
whole report, or (for a 200 answer without weather entries) the header and a panic. -/
theorem fetchAndDisplayWeather_cases (env : Env) (location apiKey : String) :
    (∃ out err, (∀ e ∈ out, ∃ t, e = Event.println t) ∧
        fetchAndDisplayWeather env location apiKey =
          ⟨.httpGet (apiURL location apiKey) :: out ++
            [.logFatal "Error fetching weather data:" (some err)], .exit 1⟩) ∨
    (∃ w first rest, w.Weather = first :: rest ∧
        fetchAndDisplayWeather env location apiKey =
          ⟨.httpGet (apiURL location apiKey) :: headerLine w :: detailLines w first,
            .ret ()⟩) ∨
    (∃ w, w.Weather = [] ∧
        fetchAndDisplayWeather env location apiKey =
          ⟨[.httpGet (apiURL location apiKey), headerLine w],
            .panic "runtime error: index out of range [0] with length 0"⟩) := by
  cases hresp : env.http (apiURL location apiKey) with
  | error err =>
    left
    exact ⟨[], err, by simp, by
      simp [fetchAndDisplayWeather, getWeatherData, hresp, run_bind, run_pure, Run.bind, emit,
        logFatal]⟩
  | ok resp =>
    by_cases hs : resp.StatusCode = 200
    · cases hread : resp.readErr with
      | some err =>
        left
        exact ⟨[], err, by simp, by
          simp [fetchAndDisplayWeather, getWeatherData, hresp, hs, hread, run_bind, run_pure,
            Run.bind, emit, logFatal]⟩
      | none =>
        cases hu : unmarshalWeatherData resp.body with
        | error err =>
          left
          exact ⟨[], err, by simp, by
            simp [fetchAndDisplayWeather, getWeatherData_ok env location apiKey resp hresp hs
              hread, hu, run_bind, Run.bind, logFatal]⟩
        | ok w =>
          right
          cases hw : w.Weather with
          | nil =>
            right
            exact ⟨w, hw, by
              simp [fetchAndDisplayWeather, getWeatherData_ok env location apiKey resp hresp hs
                hread, hu, run_bind, Run.bind, displayWeatherInfo_nil w hw]⟩
          | cons first rest =>
            left
            exact ⟨w, first, rest, hw, by
              simp [fetchAndDisplayWeather, getWeatherData_ok env location apiKey resp hresp hs
                hread, hu, run_bind, Run.bind, displayWeatherInfo_cons w first rest hw]⟩
    · left
      refine ⟨[.println ("API request failed with status code " ++ formatInt resp.StatusCode
          ++ "\n"), .println (resp.body ++ "\n")],
        .errorf ("API request failed with status code " ++ formatInt resp.StatusCode), ?_, ?_⟩
      · intro e he
        simp only [List.mem_cons, List.not_mem_nil, or_false] at he
        rcases he with rfl | rfl <;> exact ⟨_, rfl⟩
      · simp [fetchAndDisplayWeather, getWeatherData_not_ok env location apiKey resp hresp hs,
          run_bind, Run.bind, logFatal]

/-- The weather URL is never the geolocation URL. -/
theorem apiURL_ne_ipLocationAPIURL (location apiKey : String) :
    apiURL location apiKey ≠ ipLocationAPIURL := by
  intro h
  have h8 := congrArg (fun s : String => s.data.get? 8) h
  simp [apiURL, weatherAPIURL, ipLocationAPIURL, String.data_append] at h8

/-- The only request `fetchAndDisplayWeather` makes is the one for its location, it reads
nothing from standard input and prompts for nothing. -/
theorem fetchAndDisplayWeather_events (env : Env) (location apiKey : String) :
    Event.httpGet (apiURL location apiKey) ∈ (fetchAndDisplayWeather env location apiKey).events
      ∧ ∀ e ∈ (fetchAndDisplayWeather env location apiKey).events,
          e = .httpGet (apiURL location apiKey) ∨ (∃ t, e = .println t) ∨
            (∃ t, e = .color .cyan t) ∨ ∃ t err, e = .logFatal t err := by
  rcases fetchAndDisplayWeather_cases env location apiKey with
    ⟨out, err, hout, h⟩ | ⟨w, first, rest, _, h⟩ | ⟨w, _, h⟩
  · rw [h]
    refine ⟨by simp, ?_⟩
    intro e he
    simp only [List.cons_append, List.mem_cons, List.mem_append, List.mem_singleton,
      List.not_mem_nil, or_false] at he
    rcases he with rfl | he | rfl
    · exact Or.inl rfl
    · exact Or.inr (Or.inl (hout e he))
    · exact Or.inr (Or.inr (Or.inr ⟨_, _, rfl⟩))
  · rw [h]
    refine ⟨by simp, ?_⟩
    intro e he
    simp only [List.mem_cons, detailLines, headerLine, List.not_mem_nil, or_false] at he
    rcases he with rfl | rfl | rfl | rfl | rfl | rfl | rfl | rfl | rfl | rfl | rfl
    · exact Or.inl rfl
    all_goals exact Or.inr (Or.inr (Or.inl ⟨_, rfl⟩))
  · rw [h]
    refine ⟨by simp, ?_⟩
    intro e he
    simp only [List.mem_cons, headerLine, List.not_mem_nil, or_false] at he
    rcases he with rfl | rfl
    · exact Or.inl rfl
    · exact Or.inr (Or.inr (Or.inl ⟨_, rfl⟩))

/-! ## `main` -/

/-- What `main` does once the menu choice 2 is read. -/
theorem main_option2_eq (env : Env) (apiKey : String) (hd : env.dotenvLoaded = true)
    (hk : env.apiKey = some apiKey) (ho : env.scanOption = .ok 2) :
    main env =
      if chosenLocation env ≠ "" then
        ⟨menuEvents ++ promptEvents env ++
            (fetchAndDisplayWeather env (chosenLocation env) apiKey).events,
          (fetchAndDisplayWeather env (chosenLocation env) apiKey).outcome⟩
      else
        ⟨menuEvents ++ promptEvents env ++ [.println "Invalid location. Exiting.\n"],
          .exit 1⟩ := by
  have hmenu1 := colorPrint_plain .green "Choose an option:" (by decide)
  have hmenu2 := colorPrint_plain .cyan "1. Get weather for your location" (by decide)
  have hmenu3 := colorPrint_plain .cyan "2. Enter a specific location" (by decide)
  have hmenu4 := colorPrint_plain .green "Enter your choice (1 or 2): " (by decide)
  have hprompt := colorPrint_plain .green "Enter the location: " (by decide)
  have e1 : ("Choose an option:" ++ "\n" : String) = "Choose an option:\n" := by decide
  have e2 : ("1. Get weather for your location" ++ "\n" : String)
      = "1. Get weather for your location\n" := by decide
  have e3 : ("2. Enter a specific location" ++ "\n" : String)
      = "2. Enter a specific location\n" := by decide
  have e4 : ("Enter your choice (1 or 2): " ++ "\n" : String)
      = "Enter your choice (1 or 2): \n" := by decide
  have e5 : ("Enter the location: " ++ "\n" : String) = "Enter the location: \n" := by decide
  have e6 : ("Invalid location. Exiting." ++ "\n" : String)
      = "Invalid location. Exiting.\n" := by decide
  rw [e1] at hmenu1; rw [e2] at hmenu2; rw [e3] at hmenu3; rw [e4] at hmenu4
  rw [e5] at hprompt
  unfold main
  by_cases hf : env.locationFlag = ""
  · cases hsl : env.scanLocation with
    | error err =>
      simp [hd, hk, ho, hf, hsl, chosenLocation, promptEvents, menuEvents, run_bind, run_pure,
        Run.bind, emit, println, osExit, hmenu1, hmenu2, hmenu3, hmenu4, hprompt, e6]
    | ok s =>
      by_cases hs : s = ""
      · simp [hd, hk, ho, hf, hsl, hs, chosenLocation, promptEvents, menuEvents, run_bind,
          run_pure, Run.bind, emit, println, osExit, hmenu1, hmenu2, hmenu3, hmenu4, hprompt,
          e6]
      · simp [hd, hk, ho, hf, hsl, hs, chosenLocation, promptEvents, menuEvents, run_bind,
          run_pure, Run.bind, emit, println, osExit, hmenu1, hmenu2, hmenu3, hmenu4, hprompt]
  · simp [hd, hk, ho, hf, chosenLocation, promptEvents, menuEvents, run_bind, run_pure,
      Run.bind, emit, println, osExit, hmenu1, hmenu2, hmenu3, hmenu4]

/-- The menu and the prompt hold no request. -/
theorem menu_prompt_no_request (env : Env) (url : String) :
    Event.httpGet url ∉ menuEvents ++ promptEvents env := by
  unfold menuEvents promptEvents
  split <;> simp

/-- Claim C7.  Under menu choice 2 let `L` be the `--location` value if it is not empty and
otherwise the string read at the prompt (empty if nothing could be read).  If `L` is not
empty the run is the menu, the prompt if any, and `fetchAndDisplayWeather` on exactly `L`:
the weather request for `L` is made, it is the only request, and the geolocation service is
not asked.  If `L` is empty the program prints "Invalid location. Exiting.", exits with
status 1 and makes no request.  So a request is made if and only if `L` is not empty.
With a non-empty flag value no location prompt is shown and standard input is read once,
for the menu choice. -/
theorem main_option2_location (env : Env) (apiKey : String) (hd : env.dotenvLoaded = true)
    (hk : env.apiKey = some apiKey) (ho : env.scanOption = .ok 2) :
    (chosenLocation env ≠ "" →
      main env =
          ⟨menuEvents ++ promptEvents env ++
              (fetchAndDisplayWeather env (chosenLocation env) apiKey).events,
            (fetchAndDisplayWeather env (chosenLocation env) apiKey).outcome⟩ ∧
        Event.httpGet (apiURL (chosenLocation env) apiKey) ∈ (main env).events ∧
        (∀ url, Event.httpGet url ∈ (main env).events →
          url = apiURL (chosenLocation env) apiKey) ∧
        Event.httpGet ipLocationAPIURL ∉ (main env).events) ∧
    (chosenLocation env = "" →
      main env =
          ⟨menuEvents ++ promptEvents env ++ [.println "Invalid location. Exiting.\n"],
            .exit 1⟩ ∧
        exitStatus (main env) = 1 ∧
        ∀ url, Event.httpGet url ∉ (main env).events) ∧
    ((∃ url, Event.httpGet url ∈ (main env).events) ↔ chosenLocation env ≠ "") ∧
    (env.locationFlag ≠ "" →
      chosenLocation env = env.locationFlag ∧
        Event.color .green "Enter the location: \n" ∉ (main env).events ∧
        (main env).events.count .scan = 1) := by
  have hmain := main_option2_eq env apiKey hd hk ho
  have hfetch := fetchAndDisplayWeather_events env (chosenLocation env) apiKey
  -- the requests of a run that fetches
  have hreq : chosenLocation env ≠ "" → ∀ url, Event.httpGet url ∈ (main env).events →
      url = apiURL (chosenLocation env) apiKey := by
    intro hL url hmem
    rw [hmain, if_pos hL] at hmem
    simp only [List.mem_append] at hmem
    rcases hmem with hmem | hmem
    · exact absurd (List.mem_append.mpr hmem) (menu_prompt_no_request env url)
    · rcases hfetch.2 _ hmem with h | ⟨t, h⟩ | ⟨t, h⟩ | ⟨t, err, h⟩
      · exact Event.httpGet.inj h
      · exact Event.noConfusion h
      · exact Event.noConfusion h
      · exact Event.noConfusion h
  have hnone : chosenLocation env = "" → ∀ url, Event.httpGet url ∉ (main env).events := by
    intro hL url hmem
    rw [hmain, if_neg (not_not.mpr hL)] at hmem
    simp only [List.mem_append, List.mem_singleton] at hmem
    rcases hmem with hmem | hmem
    · exact absurd (List.mem_append.mpr hmem) (menu_prompt_no_request env url)
    · exact Event.noConfusion hmem
  have hget : chosenLocation env ≠ "" →
      Event.httpGet (apiURL (chosenLocation env) apiKey) ∈ (main env).events := by
    intro hL
    rw [hmain, if_pos hL]
    exact List.mem_append_right _ hfetch.1
  refine ⟨fun hL => ⟨by rw [hmain, if_pos hL], hget hL, hreq hL, ?_⟩,
    fun hL => ⟨by rw [hmain, if_neg (not_not.mpr hL)], ?_, hnone hL⟩, ?_, ?_⟩
  · intro hmem
    exact apiURL_ne_ipLocationAPIURL _ _ (hreq hL _ hmem).symm
  · rw [hmain, if_neg (not_not.mpr hL)]
    rfl
  · constructor
    · rintro ⟨url, hmem⟩ hL
      exact hnone hL url hmem
    · intro hL
      exact ⟨_, hget hL⟩
  · intro hf
    have hL : chosenLocation env = env.locationFlag := by simp [chosenLocation, hf]
    have hLne : chosenLocation env ≠ "" := by rw [hL]; exact hf
    have hp : promptEvents env = [] := by simp [promptEvents, hf]
    refine ⟨hL, ?_, ?_⟩
    · intro hmem
      rw [hmain, if_pos hLne, hp] at hmem
      simp only [List.append_nil, List.mem_append] at hmem
      rcases hmem with hmem | hmem
      · simp [menuEvents] at hmem
      · rcases hfetch.2 _ hmem with h | ⟨t, h⟩ | ⟨t, h⟩ | ⟨t, err, h⟩
        · exact Event.noConfusion h
        · exact Event.noConfusion h
        · exact Color.noConfusion (Event.color.inj h).1
        · exact Event.noConfusion h
    · rw [hmain, if_pos hLne, hp]
      simp only [List.append_nil, List.count_append]
      have h0 : List.count Event.scan
          (fetchAndDisplayWeather env (chosenLocation env) apiKey).events = 0 := by
        rw [List.count_eq_zero]
        intro hmem
        rcases hfetch.2 _ hmem with h | ⟨t, h⟩ | ⟨t, h⟩ | ⟨t, err, h⟩ <;>
          exact Event.noConfusion h
      rw [h0]
      decide

/-! ## The claims about the driver -/

/-- Claim C5.  When the menu input is an integer other than 1 and 2, or cannot be read as
an integer, `main` ends with exit status 1 and makes no request: neither
`getUserLocation` nor `getWeatherData`, which both start with their request, is called. -/
theorem main_invalid_option (env : Env)
    (h : ∀ n, env.scanOption = .ok n → n ≠ 1 ∧ n ≠ 2) :
    (main env).outcome = .exit 1 ∧ exitStatus (main env) = 1 ∧
      ∀ url, Event.httpGet url ∉ (main env).events := by
  unfold main
  cases hd : env.dotenvLoaded <;> cases hk : env.apiKey <;> cases hs : env.scanOption <;>
    simp [run_bind, run_pure, Run.bind, logFatal, println, emit, osExit, colorPrint, exitStatus]
  rename_i key n
  obtain ⟨h1, h2⟩ := h n hs
  simp [h1, h2, run_bind, run_pure, Run.bind, logFatal, println, emit, osExit, colorPrint,
    exitStatus]

/-- Claim C5 at the menu input 3. -/
theorem main_invalid_option_witness :
    (∀ n, (londonEnv (.ok 3) ⟨200, specBody, none⟩).scanOption = .ok n → n ≠ 1 ∧ n ≠ 2) ∧
      (main (londonEnv (.ok 3) ⟨200, specBody, none⟩)).outcome = .exit 1 ∧
      exitStatus (main (londonEnv (.ok 3) ⟨200, specBody, none⟩)) = 1 ∧
      ∀ url, Event.httpGet url ∉ (main (londonEnv (.ok 3) ⟨200, specBody, none⟩)).events :=
  have h : ∀ n, (londonEnv (.ok 3) ⟨200, specBody, none⟩).scanOption = .ok n →
      n ≠ 1 ∧ n ≠ 2 := by
    intro n hn
    have h3 : (3 : Int) = n := Except.ok.inj hn
    subst h3
    decide
  ⟨h, main_invalid_option _ h⟩

/-- The run of claim C5 for an input that is not an integer: the fatal message, status 1. -/
theorem main_unreadable_option :
    main (londonEnv (.error (.external "expected integer")) ⟨200, specBody, none⟩) =
      ⟨menuEvents ++
        [.logFatal "Error reading input:" (some (.external "expected integer"))], .exit 1⟩ := by
  decide

/-- Claim C7 at `--location=London`. -/
theorem main_option2_location_witness :
    ((londonEnv (.ok 2) ⟨200, specBody, none⟩).dotenvLoaded = true ∧
      (londonEnv (.ok 2) ⟨200, specBody, none⟩).apiKey = some "KEY" ∧
      (londonEnv (.ok 2) ⟨200, specBody, none⟩).scanOption = .ok 2) ∧
    chosenLocation (londonEnv (.ok 2) ⟨200, specBody, none⟩) = "London" ∧
    Event.color .green "Enter the location: \n" ∉
      (main (londonEnv (.ok 2) ⟨200, specBody, none⟩)).events ∧
    (main (londonEnv (.ok 2) ⟨200, specBody, none⟩)).events.count .scan = 1 :=
  ⟨⟨rfl, rfl, rfl⟩,
    ((main_option2_location (londonEnv (.ok 2) ⟨200, specBody, none⟩) "KEY" rfl rfl rfl).2.2.2
      (by decide))⟩

/-- Claim C9, the run that breaks it.  Menu choice 1, the geolocation service answers 200
with an empty `city`: `getUserLocation` returns the empty string without an error, and
`main` goes on to request the weather for the empty location. -/
theorem main_empty_city_is_fetched :
    getUserLocation (geoEnv "\x7b\"city\": \"\"\x7d" nothingToGeocode) =
        ⟨[.httpGet ipLocationAPIURL], .ret ("", none)⟩ ∧
      apiURL "" "KEY" = "https://api.openweathermap.org/data/2.5/weather?q=&appid=KEY" ∧
      main (geoEnv "\x7b\"city\": \"\"\x7d" nothingToGeocode) =
        ⟨menuEvents ++
          [.httpGet ipLocationAPIURL,
           .httpGet (apiURL "" "KEY"),
           .println "API request failed with status code 400\n",
           .println "\x7b\"cod\":\"400\",\"message\":\"Nothing to geocode\"\x7d\n",
           .logFatal "Error fetching weather data:"
             (some (.errorf "API request failed with status code 400"))],
          .exit 1⟩ := by
  refine ⟨?_, ?_, ?_⟩
  · decide
  · decide
  · decide

/-! ## The claims about the report -/

/-- Claim C1, what the code does instead.  For a report without weather entries
`displayWeatherInfo` prints the header line and then panics on `Weather[0]` (index out of
range): the process crashes with status 2, and no error is reported through
`log.Fatal`. -/
theorem displayWeatherInfo_empty_weather_panics (w : WeatherData) (h : w.Weather = []) :
    displayWeatherInfo w =
        ⟨[headerLine w], .panic "runtime error: index out of range [0] with length 0"⟩ ∧
      exitStatus (displayWeatherInfo w) = 2 ∧
      ∀ t err, Event.logFatal t err ∉ (displayWeatherInfo w).events := by
  rw [displayWeatherInfo_nil w h]
  refine ⟨rfl, rfl, ?_⟩
  intro t err hmem
  simp [headerLine] at hmem

/-- Claim C1 at the answers `{}` and `{"weather": []}`: both decode without error to a
report with no weather entry, which `displayWeatherInfo` panics on. -/
theorem displayWeatherInfo_empty_weather_panics_witness :
    unmarshalWeatherData "\x7b\x7d" = .ok WeatherData.zero ∧
      unmarshalWeatherData "\x7b\"weather\": []\x7d" = .ok WeatherData.zero ∧
      WeatherData.zero.Weather = [] ∧
      displayWeatherInfo WeatherData.zero =
        ⟨[.color .cyan "Weather in , :\n"],
          .panic "runtime error: index out of range [0] with length 0"⟩ :=
  ⟨rfl, rfl, rfl, (displayWeatherInfo_empty_weather_panics WeatherData.zero rfl).1⟩

/-- Claim C8, the run that breaks it.  Menu choice 2, `--location=London`, the weather
service answers 200 with an empty `weather` list: the first report line is written, then
the run crashes (status 2) with the other nine lines unwritten. -/
theorem main_empty_weather_partial_report :
    main (londonEnv (.ok 2)
        ⟨200, "\x7b\"name\":\"London\",\"sys\":\x7b\"country\":\"GB\"\x7d,\"weather\":[]\x7d",
          none⟩) =
      ⟨menuEvents ++ [.httpGet londonURL, .color .cyan "Weather in London, GB:\n"],
        .panic "runtime error: index out of range [0] with length 0"⟩ ∧
    exitStatus (main (londonEnv (.ok 2)
        ⟨200, "\x7b\"name\":\"London\",\"sys\":\x7b\"country\":\"GB\"\x7d,\"weather\":[]\x7d",
          none⟩)) = 2 := by
  decide

set_option maxRecDepth 100000 in
/-- Claim C6, the run of the scenario.  Menu choice 2, `--location=London`, the answer of
the specification: the report has the pressure, humidity, wind and cloudiness lines of the
claim, and its temperature line carries the value 15.00, but followed by the character
U+C9F8 that stands in the source where the degree sign was meant; the text
`Temperature: 15.00°C` is not written. -/
theorem main_london_report :
    main (londonEnv (.ok 2) ⟨200, specBody, none⟩) =
      ⟨[ .color .green "Choose an option:\n",
         .color .cyan "1. Get weather for your location\n",
         .color .cyan "2. Enter a specific location\n",
         .color .green "Enter your choice (1 or 2): \n",
         .scan,
         .httpGet "https://api.openweathermap.org/data/2.5/weather?q=London&appid=KEY",
         .color .cyan "Weather in London, GB:\n",
         .color .cyan "Description: clear sky\n",
         .color .cyan "Temperature: 15.00째C\n",
         .color .cyan "Feels Like: 13.85째C\n",
         .color .cyan "Min Temperature: 12.85째C\n",
         .color .cyan "Max Temperature: 16.85째C\n",
         .color .cyan "Pressure: 1012 hPa\n",
         .color .cyan "Humidity: 60%\n",
         .color .cyan "Wind Speed: 3.50 m/s\n",
         .color .cyan "Cloudiness: 10%\n" ], .ret ()⟩ ∧
    Event.color .cyan "Temperature: 15.00°C\n" ∉
      (main (londonEnv (.ok 2) ⟨200, specBody, none⟩)).events := by
  decide!

/-! ## The claims about the two fetchers -/

/-- Claim C2.  For a weather answer whose status `s` is not 200, `getWeatherData` makes its
request, prints the status and the raw body, and returns a nil report with the error
"API request failed with status code s".  What it returns does not depend on the body:
any other answer with the same status gives the same result, so the body is not decoded. -/
theorem getWeatherData_status_error (env : Env) (location apiKey : String) (resp : Response)
    (hresp : env.http (apiURL location apiKey) = .ok resp) (hs : resp.StatusCode ≠ 200) :
    (getWeatherData env location apiKey).outcome =
        .ret (none, some (.errorf ("API request failed with status code "
          ++ formatInt resp.StatusCode))) ∧
      (getWeatherData env location apiKey).events =
        [.httpGet (apiURL location apiKey),
         .println ("API request failed with status code " ++ formatInt resp.StatusCode ++ "\n"),
         .println (resp.body ++ "\n")] ∧
      ∀ (env2 : Env) (resp2 : Response), env2.http (apiURL location apiKey) = .ok resp2 →
        resp2.StatusCode = resp.StatusCode →
        (getWeatherData env2 location apiKey).outcome =
          (getWeatherData env location apiKey).outcome := by
  rw [getWeatherData_not_ok env location apiKey resp hresp hs]
  refine ⟨rfl, rfl, ?_⟩
  intro env2 resp2 hresp2 hs2
  rw [getWeatherData_not_ok env2 location apiKey resp2 hresp2 (by rw [hs2]; exact hs), hs2]

/-- Claim C2 at a 404 answer whose body is a well-formed weather report. -/
theorem getWeatherData_status_error_witness :
    ((londonEnv (.ok 2) ⟨404, specBody, none⟩).http (apiURL "London" "KEY")
        = .ok ⟨404, specBody, none⟩ ∧ (404 : Int) ≠ 200) ∧
      (getWeatherData (londonEnv (.ok 2) ⟨404, specBody, none⟩) "London" "KEY").outcome =
        .ret (none, some (.errorf "API request failed with status code 404")) :=
  ⟨⟨rfl, by decide⟩,
    (getWeatherData_status_error (londonEnv (.ok 2) ⟨404, specBody, none⟩) "London" "KEY"
      ⟨404, specBody, none⟩ rfl (by decide)).1⟩

/-- Claim C3.  For a geolocation answer with status 200 whose body `json.Unmarshal` stores
as an object, `getUserLocation` returns `c` without an error exactly when the value of the
key `city` is the JSON string `c`; when `city` is missing or its value is not a string, it
returns the empty string and the error "City not found in user location data", in
particular when no member of the object has the key `city`.  A key written twice counts
with its last value, as in the Go map; when every `city` member of the object has the
string `c` as its value, and there is one, `c` is returned.  In all cases the one event is
the request. -/
theorem getUserLocation_city (env : Env) (resp : Response) (members : List (String × JSON))
    (hresp : env.http ipLocationAPIURL = .ok resp) (hs : resp.StatusCode = 200)
    (hread : resp.readErr = none) (hbody : unmarshalMap resp.body = .ok (some members)) :
    (∀ c, (getUserLocation env).outcome = .ret (c, none) ↔
        mapIndex (some members) "city" = some (.str c)) ∧
      ((∀ c, mapIndex (some members) "city" ≠ some (.str c)) →
        (getUserLocation env).outcome =
          .ret ("", some (.errorf "City not found in user location data"))) ∧
      ((∀ kv ∈ members, kv.1 ≠ "city") →
        (getUserLocation env).outcome =
          .ret ("", some (.errorf "City not found in user location data"))) ∧
      (∀ c, ("city", JSON.str c) ∈ members →
        (∀ kv ∈ members, kv.1 = "city" → kv.2 = JSON.str c) →
        (getUserLocation env).outcome = .ret (c, none)) ∧
      (getUserLocation env).events = [.httpGet ipLocationAPIURL] := by
  have hrun : getUserLocation env =
      ⟨[.httpGet ipLocationAPIURL],
        .ret (match mapIndex (some members) "city" with
              | some (.str city) => (city, none)
              | _ => ("", some (.errorf "City not found in user location data")))⟩ := by
    unfold getUserLocation
    simp only [hresp, hs, hread, hbody, run_bind, run_pure, Run.bind, emit, ne_eq,
      not_true_eq_false, if_false, List.append_nil, List.singleton_append]
    split <;> simp_all
  rw [hrun]
  refine ⟨?_, ?_, ?_, ?_, rfl⟩
  · intro c
    cases hm : mapIndex (some members) "city" with
    | none => simp
    | some v => cases v <;> simp
  · intro hno
    cases hm : mapIndex (some members) "city" with
    | none => rfl
    | some v =>
      cases v with
      | str s => exact absurd hm (hno s)
      | _ => rfl
  · intro habsent
    have hm : mapIndex (some members) "city" = none := by
      have hfind : members.reverse.find? (fun kv => decide (kv.1 = "city")) = none := by
        rw [List.find?_eq_none]
        intro kv hkv
        simpa using habsent kv (List.mem_reverse.mp hkv)
      simp [mapIndex, hfind]
    rw [hm]
  · intro c hmem huniq
    have hm : mapIndex (some members) "city" = some (.str c) := by
      cases hfind : members.reverse.find? (fun kv => decide (kv.1 = "city")) with
      | none =>
        rw [List.find?_eq_none] at hfind
        have := hfind ("city", JSON.str c) (List.mem_reverse.mpr hmem)
        simp at this
      | some kv =>
        have hkey : kv.1 = "city" := by simpa using List.find?_some hfind
        have hin : kv ∈ members := List.mem_reverse.mp (List.mem_of_find?_eq_some hfind)
        simp [mapIndex, hfind, huniq kv hin hkey]
    rw [hm]

/-- Claim C3 at the answer `{"city": "Paris"}`: exactly "Paris", no error. -/
theorem getUserLocation_city_witness :
    ((geoEnv "\x7b\"city\": \"Paris\"\x7d" nothingToGeocode).http ipLocationAPIURL
          = .ok ⟨200, "\x7b\"city\": \"Paris\"\x7d", none⟩ ∧
        unmarshalMap "\x7b\"city\": \"Paris\"\x7d" = .ok (some [("city", .str "Paris")])) ∧
      (getUserLocation (geoEnv "\x7b\"city\": \"Paris\"\x7d" nothingToGeocode)).outcome
        = .ret ("Paris", none) :=
  ⟨⟨rfl, rfl⟩,
    ((getUserLocation_city (geoEnv "\x7b\"city\": \"Paris\"\x7d" nothingToGeocode)
      ⟨200, "\x7b\"city\": \"Paris\"\x7d", none⟩ [("city", .str "Paris")] rfl rfl rfl rfl).1
        "Paris").2 rfl⟩

/-- The answer `{}` of claim C3: the empty string and the field-missing error. -/
theorem getUserLocation_empty_object :
    getUserLocation (geoEnv "\x7b\x7d" nothingToGeocode) =
      ⟨[.httpGet ipLocationAPIURL],
        .ret ("", some (.errorf "City not found in user location data"))⟩ := by
  decide

/-! ## The float64 model: what the roundings are -/

/-- For a field below `2^1023` in magnitude the text is a decimal, not an infinity. -/
theorem CelsiusText_decimal (s : Bool) (a : Nat) (t : String) (ha : a < 2 ^ 2097)
    (h : CelsiusText s a t) :
    ∃ u h, 2 ^ 53 * (u - exactDiff s a) ≤ exactDiff s a ∧
      2 ^ 53 * (exactDiff s a - u) ≤ exactDiff s a ∧ NearestHundredth u h ∧
      t = fixed2 (belowOffset s a) h := by
  obtain ⟨u, h1, h2, hcase⟩ := h
  rcases hcase with ⟨_, hh, hnear, ht⟩ | ⟨hbig, _⟩
  · exact ⟨u, hh, h1, h2, hnear, ht⟩
  · exfalso
    have hc : 2 ^ 2097 + kelvinOffsetUnits
        < 9007199254740992 * (2 ^ 2098 - (2 ^ 2097 + kelvinOffsetUnits)) := by decide!
    have hle : 2 ^ 2097 + kelvinOffsetUnits ≤ 2 ^ 2098 := by decide!
    have he : exactDiff s a < 2 ^ 2097 + kelvinOffsetUnits := by
      unfold exactDiff
      split
      · omega
      · split <;> omega
    have h53 : (2 : Nat) ^ 53 = 9007199254740992 := by norm_num
    rw [h53] at h1
    clear h2
    generalize exactDiff s a = e at h1 he
    generalize 2 ^ 2097 + kelvinOffsetUnits = bound at hc hle he
    generalize (2 : Nat) ^ 2098 = top at hbig hc hle
    omega

/-- A field below the constant is shown with its minus sign: 263.15 Kelvin is -10.00. -/
theorem displayWeatherInfo_celsius_below_zero :
    Event.color .cyan "Temperature: -10.00째C\n" ∈ (displayWeatherInfo report26315).events := by
  decide!

/-! ## `url.QueryEscape` -/

/-- A UTF-8 byte is below 256. -/
theorem utf8Bytes_lt (c : Char) : ∀ b ∈ utf8Bytes c, b < 256 := by
  have hc : c.toNat < 0x110000 := by
    have h := c.valid
    simp only [Char.toNat]
    rcases h with h | h
    · exact lt_trans h (by decide)
    · exact h.2
  intro b hb
  unfold utf8Bytes at hb
  simp only at hb
  split at hb
  · simp only [List.mem_singleton] at hb; omega
  · split at hb
    · simp only [List.mem_cons, List.mem_singleton, List.not_mem_nil, or_false] at hb; omega
    · split at hb
      · simp only [List.mem_cons, List.mem_singleton, List.not_mem_nil, or_false] at hb; omega
      · simp only [List.mem_cons, List.mem_singleton, List.not_mem_nil, or_false] at hb; omega

/-- The bytes of a Go string are below 256. -/
theorem goBytes_lt (s : String) : ∀ b ∈ goBytes s, b < 256 := by
  intro b hb
  simp only [goBytes, List.mem_flatten, List.mem_map] at hb
  obtain ⟨l, ⟨c, _, rfl⟩, hbl⟩ := hb
  exact utf8Bytes_lt c b hbl

set_option maxRecDepth 100000 in
/-- No character written for a byte is one of `&`, `=`, `#`, `?` or a space. -/
theorem escapeByte_safe : ∀ b, b < 256 → ∀ c ∈ escapeByte b,
    c ≠ '&' ∧ c ≠ '=' ∧ c ≠ '#' ∧ c ≠ '?' ∧ c ≠ ' ' := by
  decide

set_option maxRecDepth 100000 in
/-- The three ways a byte is written, with what `unescapeChars` needs of each. -/
theorem escapeByte_cases : ∀ b, b < 256 →
    b = 32 ∨
    (b ≠ 32 ∧ shouldEscape b = true ∧ hexVal (upperHex (b / 16)) = some (b / 16) ∧
      hexVal (upperHex (b % 16)) = some (b % 16)) ∨
    (b ≠ 32 ∧ shouldEscape b = false ∧ Char.ofNat b ≠ '%' ∧ Char.ofNat b ≠ '+' ∧
      utf8Bytes (Char.ofNat b) = [b]) := by
  decide

/-- Reading back one escaped byte. -/
theorem unescapeChars_escapeByte (b : Nat) (hb : b < 256) (rest : List Char) :
    unescapeChars (escapeByte b ++ rest) = (unescapeChars rest).map (List.cons b) := by
  rcases escapeByte_cases b hb with h | ⟨h32, hesc, h1, h2⟩ | ⟨h32, hesc, hp, hq, hu⟩
  · subst h
    have h0 : escapeByte 32 ++ rest = '+' :: rest := rfl
    rw [h0, unescapeChars.eq_def]
    simp
  · have hb16 : b / 16 * 16 + b % 16 = b := by omega
    have h0 : escapeByte b ++ rest = '%' :: upperHex (b / 16) :: upperHex (b % 16) :: rest := by
      simp [escapeByte, h32, hesc]
    rw [h0, unescapeChars.eq_def]
    simp only [if_true, h1, h2]
    cases unescapeChars rest <;> simp [hb16]
  · have h0 : escapeByte b ++ rest = Char.ofNat b :: rest := by
      simp [escapeByte, h32, hesc]
    rw [h0, unescapeChars.eq_def]
    simp only [hp, hq, if_false, hu]
    cases unescapeChars rest <;> simp

/-- Reading back an escaped byte string. -/
theorem unescapeChars_escape (bs : List Nat) (hbs : ∀ b ∈ bs, b < 256) :
    unescapeChars (bs.map escapeByte).flatten = some bs := by
  induction bs with
  | nil => simp [unescapeChars]
  | cons b bs ih =>
    have hb : b < 256 := hbs b (List.mem_cons_self b bs)
    have hrest : ∀ x ∈ bs, x < 256 := fun x hx => hbs x (List.mem_cons_of_mem b hx)
    simp only [List.map_cons, List.flatten_cons]
    rw [unescapeChars_escapeByte b hb, ih hrest]
    rfl

/-- Query-unescaping an escaped string gives back its bytes. -/
theorem QueryUnescape_QueryEscape (s : String) :
    QueryUnescape (QueryEscape s) = some (goBytes s) :=
  unescapeChars_escape (goBytes s) (goBytes_lt s)

/-- An escaped string holds none of `&`, `=`, `#`, `?` and no space. -/
theorem QueryEscape_safe (s : String) : ∀ c ∈ (QueryEscape s).data,
    c ≠ '&' ∧ c ≠ '=' ∧ c ≠ '#' ∧ c ≠ '?' ∧ c ≠ ' ' := by
  intro c hc
  simp only [QueryEscape, List.mem_flatten, List.mem_map] at hc
  obtain ⟨l, ⟨b, hb, rfl⟩, hcl⟩ := hc
  exact escapeByte_safe b (goBytes_lt s b hb) c hcl

/-! ## Query strings -/

/-- A text without the separator is one piece. -/
theorem splitOn_of_not_mem (sep : Char) (xs : List Char) (h : ∀ c ∈ xs, c ≠ sep) :
    splitOn sep xs = [xs] := by
  induction xs with
  | nil => rfl
  | cons x xs ih =>
    have hx : x ≠ sep := h x (List.mem_cons_self x xs)
    have hxs : ∀ c ∈ xs, c ≠ sep := fun c hc => h c (List.mem_cons_of_mem x hc)
    simp [splitOn, hx, ih hxs]

/-- The first piece ends at the first separator. -/
theorem splitOn_append (sep : Char) (xs ys : List Char) (h : ∀ c ∈ xs, c ≠ sep) :
    splitOn sep (xs ++ sep :: ys) = xs :: splitOn sep ys := by
  induction xs with
  | nil => simp [splitOn]
  | cons x xs ih =>
    have hx : x ≠ sep := h x (List.mem_cons_self x xs)
    have hxs : ∀ c ∈ xs, c ≠ sep := fun c hc => h c (List.mem_cons_of_mem x hc)
    simp [splitOn, hx, ih hxs]

/-- Cutting at a separator that follows a text without it. -/
theorem cut_append (sep : Char) (xs ys : List Char) (h : ∀ c ∈ xs, c ≠ sep) :
    cut sep (xs ++ sep :: ys) = (xs, some ys) := by
  induction xs with
  | nil => simp [cut]
  | cons x xs ih =>
    have hx : x ≠ sep := h x (List.mem_cons_self x xs)
    have hxs : ∀ c ∈ xs, c ≠ sep := fun c hc => h c (List.mem_cons_of_mem x hc)
    simp [cut, hx, ih hxs]

/-- The parameters of the query `getWeatherData` sends. -/
theorem queryParams_query (location apiKey : String)
    (hkey : ∀ c ∈ apiKey.data, isUnreserved c.toNat = true) :
    queryParams ("q=" ++ QueryEscape location ++ "&appid=" ++ apiKey)
      = [("q", QueryEscape location), ("appid", apiKey)] := by
  have hkey_amp : ∀ c ∈ apiKey.data, c ≠ '&' := by
    intro c hc heq
    have := hkey c hc
    rw [heq] at this
    exact absurd this (by decide)
  have hesc := QueryEscape_safe location
  have hdata : ("q=" ++ QueryEscape location ++ "&appid=" ++ apiKey).data
      = ('q' :: '=' :: (QueryEscape location).data) ++
          '&' :: ('a' :: 'p' :: 'p' :: 'i' :: 'd' :: '=' :: apiKey.data) := by
    simp [String.data_append]
  have h1 : ∀ c ∈ 'q' :: '=' :: (QueryEscape location).data, c ≠ '&' := by
    intro c hc
    simp only [List.mem_cons] at hc
    rcases hc with rfl | rfl | hc
    · decide
    · decide
    · exact (hesc c hc).1
  have h2 : ∀ c ∈ 'a' :: 'p' :: 'p' :: 'i' :: 'd' :: '=' :: apiKey.data, c ≠ '&' := by
    intro c hc
    simp only [List.mem_cons] at hc
    rcases hc with rfl | rfl | rfl | rfl | rfl | rfl | hc
    all_goals first | decide | exact hkey_amp c hc
  have hq : cut '=' ('q' :: '=' :: (QueryEscape location).data)
      = (['q'], some (QueryEscape location).data) :=
    cut_append '=' ['q'] _ (by decide)
  have hp : cut '=' ('a' :: 'p' :: 'p' :: 'i' :: 'd' :: '=' :: apiKey.data)
      = (['a', 'p', 'p', 'i', 'd'], some apiKey.data) :=
    cut_append '=' ['a', 'p', 'p', 'i', 'd'] _ (by decide)
  unfold queryParams
  rw [hdata, splitOn_append '&' _ _ h1, splitOn_of_not_mem '&' _ h2]
  simp only [List.filter, List.isEmpty_cons, Bool.not_false, List.map_cons, List.map_nil, hq,
    hp, Option.getD_some]

/-- The requested URL is the endpoint, a `?`, and the query. -/
theorem apiURL_eq (location apiKey : String) :
    apiURL location apiKey =
      weatherAPIURL ++ "?" ++ ("q=" ++ QueryEscape location ++ "&appid=" ++ apiKey) := by
  have h : ("?q=" : String) = "?" ++ "q=" := by decide
  simp only [apiURL, h, String.append_assoc]

/-- The events of `getWeatherData`: its request first, then nothing but printed lines. -/
theorem getWeatherData_events (env : Env) (location apiKey : String) :
    ∃ rest, (getWeatherData env location apiKey).events
        = .httpGet (apiURL location apiKey) :: rest ∧ ∀ e ∈ rest, ∃ t, e = Event.println t := by
  cases hresp : env.http (apiURL location apiKey) with
  | error err =>
    exact ⟨[], by simp [getWeatherData, hresp, run_bind, run_pure, Run.bind, emit], by simp⟩
  | ok resp =>
    by_cases hs : resp.StatusCode = 200
    · cases hread : resp.readErr with
      | some err =>
        exact ⟨[], by simp [getWeatherData, hresp, hs, hread, run_bind, run_pure, Run.bind, emit],
          by simp⟩
      | none =>
        exact ⟨[], by rw [getWeatherData_ok env location apiKey resp hresp hs hread], by simp⟩
    · refine ⟨_, by rw [getWeatherData_not_ok env location apiKey resp hresp hs], ?_⟩
      intro e he
      simp only [List.mem_cons, List.not_mem_nil, or_false] at he
      rcases he with rfl | rfl <;> exact ⟨_, rfl⟩

/-- Claim C10.  For every location, and every API key made of unreserved characters, the
first thing `getWeatherData` does is request the weather endpoint followed by `?` and the
query `q=` + QueryEscape(location) + `&appid=` + apiKey, and it requests nothing else.  The
escaped location holds none of `&`, `=`, `#`, `?` and no space, so the query has exactly
the two parameters `q` and `appid` (none named `units`), and query-unescaping the value of
`q` gives back the bytes of the location. -/
theorem getWeatherData_request (env : Env) (location apiKey : String)
    (hkey : ∀ c ∈ apiKey.data, isUnreserved c.toNat = true) :
    (∃ rest, (getWeatherData env location apiKey).events =
        .httpGet (weatherAPIURL ++ "?" ++ ("q=" ++ QueryEscape location ++ "&appid=" ++ apiKey))
          :: rest ∧ ∀ url, Event.httpGet url ∉ rest) ∧
      (∀ c ∈ (QueryEscape location).data, c ≠ '&' ∧ c ≠ '=' ∧ c ≠ '#' ∧ c ≠ '?' ∧ c ≠ ' ') ∧
      queryParams ("q=" ++ QueryEscape location ++ "&appid=" ++ apiKey)
        = [("q", QueryEscape location), ("appid", apiKey)] ∧
      (∀ p ∈ queryParams ("q=" ++ QueryEscape location ++ "&appid=" ++ apiKey),
        p.1 ≠ "units") ∧
      QueryUnescape (QueryEscape location) = some (goBytes location) := by
  refine ⟨?_, QueryEscape_safe location, queryParams_query location apiKey hkey, ?_,
    QueryUnescape_QueryEscape location⟩
  · obtain ⟨rest, hev, hrest⟩ := getWeatherData_events env location apiKey
    refine ⟨rest, by rw [hev, apiURL_eq], ?_⟩
    intro url hmem
    obtain ⟨t, ht⟩ := hrest _ hmem
    exact Event.noConfusion ht
  · intro p hp
    rw [queryParams_query location apiKey hkey] at hp
    simp only [List.mem_cons, List.not_mem_nil, or_false] at hp
    rcases hp with rfl | rfl
    · show ("q" : String) ≠ "units"
      decide
    · show ("appid" : String) ≠ "units"
      decide

/-- Claim C10 at the location `London&appid=x`: the `&` and the `=` are escaped and the
query still has the two parameters `q` and `appid`. -/
theorem getWeatherData_request_witness :
    (∀ c ∈ ("KEY" : String).data, isUnreserved c.toNat = true) ∧
      QueryEscape "London&appid=x" = "London%26appid%3Dx" ∧
      queryParams ("q=" ++ QueryEscape "London&appid=x" ++ "&appid=" ++ "KEY")
        = [("q", "London%26appid%3Dx"), ("appid", "KEY")] :=
  ⟨by decide, by decide,
    (getWeatherData_request (londonEnv (.ok 2) ⟨200, specBody, none⟩) "London&appid=x" "KEY"
      (by decide)).2.2.1⟩

/-! ## Further properties of the driver and the report -/

/-- Without the `.env` file the program stops at once: the fatal message, status 1, and
nothing else. -/
theorem main_dotenv_missing (env : Env) (hd : env.dotenvLoaded = false) :
    main env = ⟨[.logFatal "Error loading .env file" none], .exit 1⟩ := by
  simp [main, hd, run_bind, Run.bind, logFatal]

/-- A run without the `.env` file. -/
theorem main_dotenv_missing_witness :
    ({ londonEnv (.ok 2) ⟨200, specBody, none⟩ with dotenvLoaded := false } : Env).dotenvLoaded
        = false ∧
      main { londonEnv (.ok 2) ⟨200, specBody, none⟩ with dotenvLoaded := false } =
        ⟨[.logFatal "Error loading .env file" none], .exit 1⟩ :=
  ⟨rfl, main_dotenv_missing _ rfl⟩

/-- Without the API key the program prints one line and exits with status 1 before it shows
the menu, reads anything or requests anything. -/
theorem main_api_key_missing (env : Env) (hd : env.dotenvLoaded = true)
    (hk : env.apiKey = none) :
    main env = ⟨[.println "OpenWeatherMap API key not set. Exiting.\n"], .exit 1⟩ := by
  have e : ("OpenWeatherMap API key not set. Exiting." ++ "\n" : String)
      = "OpenWeatherMap API key not set. Exiting.\n" := by decide
  simp [main, hd, hk, run_bind, run_pure, Run.bind, println, emit, osExit, e]

/-- A run without the API key. -/
theorem main_api_key_missing_witness :
    (({ londonEnv (.ok 2) ⟨200, specBody, none⟩ with apiKey := none } : Env).dotenvLoaded = true
        ∧ ({ londonEnv (.ok 2) ⟨200, specBody, none⟩ with apiKey := none } : Env).apiKey = none) ∧
      main { londonEnv (.ok 2) ⟨200, specBody, none⟩ with apiKey := none } =
        ⟨[.println "OpenWeatherMap API key not set. Exiting.\n"], .exit 1⟩ :=
  ⟨⟨rfl, rfl⟩, main_api_key_missing _ rfl rfl⟩

/-- Under menu choice 1 an error of `getUserLocation` is fatal: after the events of the
lookup comes the fatal message with that error, the exit status is 1, and the prompt for a
location of menu choice 2 is not used as a fallback. -/
theorem main_option1_lookup_error (env : Env) (apiKey city : String) (err : GoError)
    (hd : env.dotenvLoaded = true) (hk : env.apiKey = some apiKey)
    (ho : env.scanOption = .ok 1)
    (hloc : (getUserLocation env).outcome = .ret (city, some err)) :
    main env =
      ⟨menuEvents ++ (getUserLocation env).events ++
        [.logFatal "Error getting user location:" (some err)], .exit 1⟩ := by
  have hmenu1 := colorPrint_plain .green "Choose an option:" (by decide)
  have hmenu2 := colorPrint_plain .cyan "1. Get weather for your location" (by decide)
  have hmenu3 := colorPrint_plain .cyan "2. Enter a specific location" (by decide)
  have hmenu4 := colorPrint_plain .green "Enter your choice (1 or 2): " (by decide)
  have e1 : ("Choose an option:" ++ "\n" : String) = "Choose an option:\n" := by decide
  have e2 : ("1. Get weather for your location" ++ "\n" : String)
      = "1. Get weather for your location\n" := by decide
  have e3 : ("2. Enter a specific location" ++ "\n" : String)
      = "2. Enter a specific location\n" := by decide
  have e4 : ("Enter your choice (1 or 2): " ++ "\n" : String)
      = "Enter your choice (1 or 2): \n" := by decide
  rw [e1] at hmenu1; rw [e2] at hmenu2; rw [e3] at hmenu3; rw [e4] at hmenu4
  simp [main, hd, hk, ho, hloc, menuEvents, run_bind, run_pure, Run.bind, emit, logFatal,
    hmenu1, hmenu2, hmenu3, hmenu4]

/-- Menu choice 1 with a geolocation service that answers 503. -/
theorem main_option1_lookup_error_witness :
    main { geoEnv "" nothingToGeocode with
           http := fun _ => .ok ⟨503, "Service Unavailable", none⟩ } =
      ⟨menuEvents ++
        [.httpGet ipLocationAPIURL,
         .println "Error fetching user location. Please enter a location manually.\n",
         .logFatal "Error getting user location:"
           (some (.errorf "API request failed with status code 503"))], .exit 1⟩ :=
  main_option1_lookup_error
    { geoEnv "" nothingToGeocode with http := fun _ => .ok ⟨503, "Service Unavailable", none⟩ }
    "KEY" "" (.errorf "API request failed with status code 503") rfl rfl rfl (by decide)

/-- For a report with a first weather entry `displayWeatherInfo` writes ten cyan lines, one
per field and in this order, and returns: location, description of the first weather
entry, the four temperatures, pressure, humidity, wind speed, cloudiness. -/
theorem displayWeatherInfo_report (w : WeatherData) (first : Weather) (rest : List Weather)
    (h : w.Weather = first :: rest) :
    displayWeatherInfo w =
      ⟨[ .color .cyan ("Weather in " ++ w.Name ++ ", " ++ w.Sys.Country ++ ":\n"),
         .color .cyan ("Description: " ++ first.Description ++ "\n"),
         .color .cyan ("Temperature: " ++ formatFloat2 (w.Main.Temp.sub kelvinOffset)
           ++ "째C\n"),
         .color .cyan ("Feels Like: " ++ formatFloat2 (w.Main.FeelsLike.sub kelvinOffset)
           ++ "째C\n"),
         .color .cyan ("Min Temperature: " ++ formatFloat2 (w.Main.TempMin.sub kelvinOffset)
           ++ "째C\n"),
         .color .cyan ("Max Temperature: " ++ formatFloat2 (w.Main.TempMax.sub kelvinOffset)
           ++ "째C\n"),
         .color .cyan ("Pressure: " ++ formatInt w.Main.Pressure ++ " hPa\n"),
         .color .cyan ("Humidity: " ++ formatInt w.Main.Humidity ++ "%\n"),
         .color .cyan ("Wind Speed: " ++ formatFloat2 w.Wind.Speed ++ " m/s\n"),
         .color .cyan ("Cloudiness: " ++ formatInt w.Clouds.All ++ "%\n") ], .ret ()⟩ :=
  displayWeatherInfo_cons w first rest h

/-- The report of a zero-valued record with one weather entry and temp 300.00. -/
theorem displayWeatherInfo_report_witness :
    report300.Weather = [Weather.zero] ∧
      (displayWeatherInfo report300).events.length = 10 ∧
      (displayWeatherInfo report300).outcome = .ret () :=
  ⟨rfl, by rw [displayWeatherInfo_report report300 Weather.zero [] rfl]; decide,
    by rw [displayWeatherInfo_report report300 Weather.zero [] rfl]⟩

/-- How a fetch can end, by its outcome.  If `fetchAndDisplayWeather` returns, it wrote the
whole report, ten lines.  If the process exits, the status is 1 and no report line was
written.  If it panics, the answer decoded to a report without weather entries and exactly
the header line was written. -/
theorem fetchAndDisplayWeather_outcomes (env : Env) (location apiKey : String) :
    ((fetchAndDisplayWeather env location apiKey).outcome = .ret () →
      ∃ w first, (fetchAndDisplayWeather env location apiKey).events =
        .httpGet (apiURL location apiKey) :: headerLine w :: detailLines w first) ∧
    (∀ code, (fetchAndDisplayWeather env location apiKey).outcome = .exit code →
      code = 1 ∧ ∀ c t, Event.color c t ∉ (fetchAndDisplayWeather env location apiKey).events) ∧
    (∀ msg, (fetchAndDisplayWeather env location apiKey).outcome = .panic msg →
      ∃ w, w.Weather = [] ∧ (fetchAndDisplayWeather env location apiKey).events =
        [.httpGet (apiURL location apiKey), headerLine w]) := by
  rcases fetchAndDisplayWeather_cases env location apiKey with
    ⟨out, err, hout, h⟩ | ⟨w, first, rest, _, h⟩ | ⟨w, hw, h⟩
  · rw [h]
    refine ⟨fun hret => Outcome.noConfusion hret, ?_, fun msg hp => Outcome.noConfusion hp⟩
    intro code hcode
    refine ⟨(Outcome.exit.inj hcode).symm, ?_⟩
    intro c t hmem
    simp only [List.cons_append, List.mem_cons, List.mem_append, List.mem_singleton,
      List.not_mem_nil, or_false] at hmem
    rcases hmem with hmem | hmem | hmem
    · exact Event.noConfusion hmem
    · obtain ⟨t2, ht2⟩ := hout _ hmem
      exact Event.noConfusion ht2
    · exact Event.noConfusion hmem
  · rw [h]
    exact ⟨fun _ => ⟨w, first, rfl⟩, fun code hc => Outcome.noConfusion hc,
      fun msg hp => Outcome.noConfusion hp⟩
  · rw [h]
    exact ⟨fun hret => Outcome.noConfusion hret, fun code hc => Outcome.noConfusion hc,
      fun _ _ => ⟨w, hw, rfl⟩⟩

end WeatherApp
